import Mathlib

/-!
Verification development for the Nuvira (SQON) parser and validator.

The definitions below are a shallow embedding of the repository's source:
  * `parseValueChars` embeds `SQONValidation.parseValue` (record-literal
    value inference),
  * `clauseValueDefault` / `clauseValueOther` / `parseRules` /
    `validateRulesAgainstSchema` / `parseValidationRun` embed the
    validation compiler `SQONValidation`,
  * `parseLinesRun` embeds the orchestrator `SQON.parseLines`,
  * `vfFields` / `vsSchema` / `validate` embed the runtime `Validator`.
JavaScript strings are modelled as `List Char` / `String`, JS numbers as
exact fractions with the binary64-dependent comparisons embedded through
exact equivalents (documented at each such definition), fallible code
returns `Except String` (an `.error` is a thrown JS exception).
-/

set_option maxRecDepth 10000

namespace Nuvira

/-! ### JavaScript string primitives (trim, split, startsWith, endsWith) -/

def isWsC (c : Char) : Bool :=
  c == ' ' || c == '\t' || c == '\n' || c == '\r' || c == '\x0b' || c == '\x0c'

def isDigitC (c : Char) : Bool :=
  48 ≤ c.toNat && c.toNat ≤ 57

def trimChars (cs : List Char) : List Char :=
  ((cs.dropWhile isWsC).reverse.dropWhile isWsC).reverse

def strOf (cs : List Char) : String := String.mk cs

def trimS (s : String) : String := strOf (trimChars s.data)

def isPrefixC : List Char → List Char → Bool
  | [], _ => true
  | _ :: _, [] => false
  | p :: ps, c :: cs => p == c && isPrefixC ps cs

def startsWithS (s pre : String) : Bool := isPrefixC pre.data s.data

/-- JS `s.startsWith(c)` for a single character. -/
def headIs (cs : List Char) (c : Char) : Bool :=
  match cs with
  | d :: _ => d == c
  | [] => false

/-- JS `s.endsWith(c)` for a single character. -/
def lastIs (cs : List Char) (c : Char) : Bool := headIs cs.reverse c

def splitCharAux (sep : Char) : List Char → List Char → List (List Char)
  | [], acc => [acc.reverse]
  | c :: rest, acc =>
    if c == sep then acc.reverse :: splitCharAux sep rest []
    else splitCharAux sep rest (c :: acc)

def splitChar (sep : Char) (cs : List Char) : List (List Char) :=
  splitCharAux sep cs []

def splitCharS (sep : Char) (s : String) : List String :=
  (splitChar sep s.data).map strOf

/-- JS `line.split("->")`. -/
def splitArrowAux : List Char → List Char → List (List Char)
  | '-' :: '>' :: rest, acc => acc.reverse :: splitArrowAux rest []
  | c :: rest, acc => splitArrowAux rest (c :: acc)
  | [], acc => [acc.reverse]

def splitArrow (cs : List Char) : List (List Char) := splitArrowAux cs []

/-- JS `line.includes("->")`. -/
def containsArrow : List Char → Bool
  | '-' :: '>' :: _ => true
  | _ :: rest => containsArrow rest
  | [] => false

/-- JS `toUpperCase` restricted to ASCII, which is all the source feeds it. -/
def toUpperS (s : String) : String := strOf (s.data.map Char.toUpper)

/-! ### JavaScript numbers

JS numbers are binary64 doubles.  The embedding carries the exact value of
every literal as an integer fraction `JsRat` (denominator always positive);
the places where the source's behaviour depends on the rounded double (the
`MAX_SAFE_INTEGER` comparisons and overflow to `Infinity`) are embedded
through exact equivalents of the rounded comparisons, documented at
`dblGtMaxSafe` and `toJsNum`. -/

structure JsRat where
  num : ℤ
  den : ℕ
deriving DecidableEq, Repr

def JsRat.ofNat (n : ℕ) : JsRat := ⟨(n : ℤ), 1⟩

def JsRat.neg (q : JsRat) : JsRat := ⟨-q.num, q.den⟩

/-- `q * 10 ^ e` for the exponent part of a literal. -/
def JsRat.mulPow10 (q : JsRat) (e : ℤ) : JsRat :=
  if 0 ≤ e then ⟨q.num * 10 ^ e.toNat, q.den⟩
  else ⟨q.num, q.den * 10 ^ (-e).toNat⟩

/-- The value `iv + fv / 10 ^ fc` of `digits.digits`. -/
def JsRat.ofDec (iv fv fc : ℕ) : JsRat := ⟨(iv * 10 ^ fc + fv : ℕ), 10 ^ fc⟩

inductive JsNum where
  | fin (q : JsRat)
  | inf (pos : Bool)
deriving DecidableEq, Repr

/-- `(value, digit count, rest)` of a leading digit run, JS number grammar. -/
def takeDigitsAcc : ℕ → ℕ → List Char → ℕ × ℕ × List Char
  | v, n, [] => (v, n, [])
  | v, n, c :: rest =>
    if isDigitC c then takeDigitsAcc (10 * v + (c.toNat - 48)) (n + 1) rest
    else (v, n, c :: rest)

def digitsVal (cs : List Char) : ℕ :=
  cs.foldl (fun a c => 10 * a + (c.toNat - 48)) 0

/-- The smallest integer magnitude that binary64 round-to-nearest-even sends
to `Infinity`: the midpoint between the largest finite double
`2^1024 - 2^971` and `2^1024`, which ties-to-even resolves upward. -/
def f64Overflow : ℤ := (((1 <<< 1024) - (1 <<< 970) : ℕ) : ℤ)

/-- A JS numeric conversion result: exact value in the finite range of
binary64, `Infinity` past the overflow threshold (`|q| ≥ f64Overflow` on
the exact value is exactly when the rounded double overflows, rounding
being monotone with ties-to-even at the threshold). -/
def toJsNum (q : JsRat) : JsNum :=
  if f64Overflow * (q.den : ℤ) ≤ q.num then .inf true
  else if q.num ≤ -(f64Overflow * (q.den : ℤ)) then .inf false
  else .fin q

def jsNegNum : JsNum → JsNum
  | .fin q => .fin q.neg
  | .inf p => .inf (!p)

/-- Exponent suffix of the JS decimal-literal grammar; without exponent
digits nothing is consumed (`parseFloat "1e"` reads `1`). -/
def parseExpTail (q : JsRat) (orig rest : List Char) : JsRat × List Char :=
  match rest with
  | '+' :: r2 =>
    (match takeDigitsAcc 0 0 r2 with
     | (e, n, r3) => if n == 0 then (q, orig) else (q.mulPow10 (e : ℤ), r3))
  | '-' :: r2 =>
    (match takeDigitsAcc 0 0 r2 with
     | (e, n, r3) => if n == 0 then (q, orig) else (q.mulPow10 (-(e : ℤ)), r3))
  | r2 =>
    (match takeDigitsAcc 0 0 r2 with
     | (e, n, r3) => if n == 0 then (q, orig) else (q.mulPow10 (e : ℤ), r3))

def parseExp (q : JsRat) (cs : List Char) : JsRat × List Char :=
  match cs with
  | 'e' :: rest => parseExpTail q cs rest
  | 'E' :: rest => parseExpTail q cs rest
  | _ => (q, cs)

/-- Longest leading JS decimal literal (`digits [. digits] [exp]` or
`. digits [exp]`) and its exact value; `none` when no digit leads. -/
def parseDecimal (cs : List Char) : Option (JsRat × List Char) :=
  match takeDigitsAcc 0 0 cs with
  | (iv, icnt, r1) =>
    if icnt == 0 then
      match cs with
      | '.' :: r2 =>
        (match takeDigitsAcc 0 0 r2 with
         | (fv, fcnt, r3) =>
           if fcnt == 0 then none
           else some (parseExp (JsRat.ofDec 0 fv fcnt) r3))
      | _ => none
    else
      match r1 with
      | '.' :: r2 =>
        (match takeDigitsAcc 0 0 r2 with
         | (fv, fcnt, r3) => some (parseExp (JsRat.ofDec iv fv fcnt) r3))
      | _ => some (parseExp (JsRat.ofNat iv) r1)

def decDigit (c : Char) : Option ℕ :=
  if isDigitC c then some (c.toNat - 48) else none

def hexDigit (c : Char) : Option ℕ :=
  if isDigitC c then some (c.toNat - 48)
  else if 97 ≤ c.toNat && c.toNat ≤ 102 then some (c.toNat - 87)
  else if 65 ≤ c.toNat && c.toNat ≤ 70 then some (c.toNat - 55)
  else none

def binDigit (c : Char) : Option ℕ :=
  if c == '0' then some 0 else if c == '1' then some 1 else none

def octDigit (c : Char) : Option ℕ :=
  if 48 ≤ c.toNat && c.toNat ≤ 55 then some (c.toNat - 48) else none

def radixValAux (radix : ℕ) (f : Char → Option ℕ) : List Char → ℕ → Option ℕ
  | [], v => some v
  | c :: rest, v =>
    match f c with
    | some d => radixValAux radix f rest (radix * v + d)
    | none => none

/-- A nonempty all-`f`-digit string in the given radix, else `none`. -/
def radixVal (radix : ℕ) (f : Char → Option ℕ) (cs : List Char) : Option ℕ :=
  if cs.isEmpty then none else radixValAux radix f cs 0

/-- JS `Number(s)` on an unsigned string with decimal syntax only
(after a sign JS accepts no radix prefix). -/
def jsNumUnsignedDec (cs : List Char) : Option JsNum :=
  if cs == "Infinity".data then some (.inf true)
  else
    match parseDecimal cs with
    | some (q, []) => some (toJsNum q)
    | _ => none

/-- JS `Number(s)` on an unsigned string: radix-prefixed or decimal. -/
def jsNumUnsigned (cs : List Char) : Option JsNum :=
  if headIs cs '0' && (headIs (cs.drop 1) 'x' || headIs (cs.drop 1) 'X') then
    (radixVal 16 hexDigit (cs.drop 2)).map (fun n => toJsNum (JsRat.ofNat n))
  else if headIs cs '0' && (headIs (cs.drop 1) 'b' || headIs (cs.drop 1) 'B') then
    (radixVal 2 binDigit (cs.drop 2)).map (fun n => toJsNum (JsRat.ofNat n))
  else if headIs cs '0' && (headIs (cs.drop 1) 'o' || headIs (cs.drop 1) 'O') then
    (radixVal 8 octDigit (cs.drop 2)).map (fun n => toJsNum (JsRat.ofNat n))
  else jsNumUnsignedDec cs

/-- JS `Number(s)`: `none` is `NaN`. -/
def jsNumberChars (cs0 : List Char) : Option JsNum :=
  let cs := trimChars cs0
  if cs.isEmpty then some (.fin (JsRat.ofNat 0))
  else if headIs cs '+' then jsNumUnsignedDec (cs.drop 1)
  else if headIs cs '-' then (jsNumUnsignedDec (cs.drop 1)).map jsNegNum
  else jsNumUnsigned cs

def parseFloatSignless (cs : List Char) : Option JsNum :=
  if isPrefixC "Infinity".data cs then some (.inf true)
  else
    match parseDecimal cs with
    | some (q, _) => some (toJsNum q)
    | none => none

/-- JS `parseFloat(s)`: longest numeric prefix; `none` is `NaN`. -/
def parseFloatChars (cs0 : List Char) : Option JsNum :=
  let cs := cs0.dropWhile isWsC
  if headIs cs '+' then parseFloatSignless (cs.drop 1)
  else if headIs cs '-' then (parseFloatSignless (cs.drop 1)).map jsNegNum
  else parseFloatSignless cs

/-- JS `BigInt(s)`: `none` is a thrown `SyntaxError`. -/
def jsBigIntChars (cs0 : List Char) : Option ℤ :=
  let cs := trimChars cs0
  if cs.isEmpty then some 0
  else if headIs cs '+' then (radixVal 10 decDigit (cs.drop 1)).map (fun n => (n : ℤ))
  else if headIs cs '-' then (radixVal 10 decDigit (cs.drop 1)).map (fun n => -(n : ℤ))
  else if headIs cs '0' && (headIs (cs.drop 1) 'x' || headIs (cs.drop 1) 'X') then
    (radixVal 16 hexDigit (cs.drop 2)).map (fun n => (n : ℤ))
  else if headIs cs '0' && (headIs (cs.drop 1) 'b' || headIs (cs.drop 1) 'B') then
    (radixVal 2 binDigit (cs.drop 2)).map (fun n => (n : ℤ))
  else if headIs cs '0' && (headIs (cs.drop 1) 'o' || headIs (cs.drop 1) 'O') then
    (radixVal 8 octDigit (cs.drop 2)).map (fun n => (n : ℤ))
  else (radixVal 10 decDigit cs).map (fun n => (n : ℤ))

/-- JS `numberValue > Number.MAX_SAFE_INTEGER` on the binary64 double.
Binary64 rounding is monotone; the doubles adjacent to `2^53 - 1` are
`2^53 - 1` and `2^53`, and their midpoint `2^53 - 1/2` rounds up to the even
`2^53`, so the comparison on the rounded double equals `2^53 - 1/2 ≤ q` on
the exact value — cross-multiplied below to `(2^54 - 1) * den ≤ 2 * num` (powers written as shifts so the kernel evaluates them). -/
def dblGtMaxSafe : JsNum → Bool
  | .inf p => p
  | .fin q => decide (((((1 <<< 54) - 1 : ℕ) : ℤ)) * (q.den : ℤ) ≤ 2 * q.num)

/-- JS `numberValue < Number.MIN_SAFE_INTEGER`, mirror image of
`dblGtMaxSafe`. -/
def dblLtMinSafe : JsNum → Bool
  | .inf p => !p
  | .fin q => decide (2 * q.num ≤ -(((((1 <<< 54) - 1 : ℕ) : ℤ)) * (q.den : ℤ)))

/-! ### `SQONValidation.parseValue`: record-literal value inference -/

/-- A parsed record-literal value.  `num` carries the exact fraction of the
literal; the binary64 rounding JS applies to in-range non-integer values is
not modelled (no stated property observes a stored non-integer). -/
inductive TVal where
  | undef
  | str (s : String)
  | binaryRaw (raw : String)
  | u8Raw (raw : String)
  | num (q : JsRat)
  | bigint (n : ℤ)
  | bool (b : Bool)
  | null
deriving DecidableEq, Repr

/-- Result of `parseValue`: a typed value, the error object the source
returns, the host-dependent date-recognition tail (`datePath`, reached when
every structural branch failed; its outcome rests on the host calendar
parser and is left symbolic — no stated property reaches it), or a thrown
exception (`crash`). -/
inductive PVRes where
  | ok (type : String) (value : TVal)
  | err (msg : String)
  | datePath (raw : String)
  | crash (msg : String)
deriving DecidableEq, Repr

def PVRes.kindOf : PVRes → Option String
  | .ok t _ => some t
  | _ => none

def bufPre : List Char := "<Buffer".data

def u8Pre : List Char := "Uint8Array[".data

def zeroXPre : List Char := "0x".data

/-- Embedding of `SQONValidation.parseValue`, branch for branch. -/
def parseValueChars (cs : List Char) : PVRes :=
  if cs.isEmpty then .ok "undefined" .undef
  else if headIs cs '"' && lastIs cs '"' then
    let inner := (cs.drop 1).dropLast
    if inner.isEmpty then .ok "undefined" .undef
    else .ok "String" (.str (strOf inner))
  else if isPrefixC bufPre cs && lastIs cs '>' then
    .ok "Binary" (.binaryRaw (strOf cs))
  else if isPrefixC u8Pre cs && lastIs cs ']' then
    .ok "Uint8Array" (.u8Raw (strOf cs))
  else if (jsNumberChars cs).isSome && (parseFloatChars cs).isSome
      && !(isPrefixC zeroXPre cs) then
    let nv := (parseFloatChars cs).getD (.fin (JsRat.ofNat 0))
    if dblGtMaxSafe nv || dblLtMinSafe nv then
      match jsBigIntChars cs with
      | some n => .ok "Number" (.bigint n)
      | none => .crash "SyntaxError: Cannot convert value to a BigInt"
    else
      match nv with
      | .fin q => .ok "Number" (.num q)
      | .inf _ => .ok "Number" (.num (JsRat.ofNat 0))  -- unreachable: infinities are outside the safe range
  else if cs == "TRUE".data then .ok "Boolean" (.bool true)
  else if cs == "FALSE".data then .ok "Boolean" (.bool false)
  else if cs == "NULL".data then .ok "Null" .null
  else if cs == "undefined".data then .ok "undefined" .undef
  else .datePath (strOf cs)

def parseValue (s : String) : PVRes := parseValueChars s.data

/-! ### `SQONValidation`: the validation-rule compiler

The orchestrator instantiates it with the `validationKeywords` table of
`parser.js`, copied verbatim below. -/

structure Diag where
  line : Option ℕ
  message : String
deriving DecidableEq, Repr

/-- A parsed rule value.  `int` stores the JS `parseInt` result exactly
(the double rounding JS applies to enormous digit strings is not modelled;
no stated property observes a rule-value magnitude near 2^53). -/
inductive RuleVal where
  | bool (b : Bool)
  | null
  | undef
  | int (n : ℕ)
  | float (q : JsRat)
  | str (s : String)
  | arr (items : List String)
  | obj (entries : List (String × PVRes))
deriving DecidableEq, Repr

inductive ClauseRes where
  | val (v : RuleVal)
  | diag (msg : String)
deriving DecidableEq, Repr

/-- JS property assignment on an object modelled as an ordered
association list: an existing key keeps its position, a new key appends. -/
def objSet {α : Type} (l : List (String × α)) (k : String) (v : α) : List (String × α) :=
  if l.any (fun p => p.1 == k) then
    l.map (fun p => if p.1 == k then (k, v) else p)
  else l ++ [(k, v)]

/-- The regex `^\d+$`. -/
def isIntLit (cs : List Char) : Bool := !cs.isEmpty && cs.all isDigitC

/-- The regex `^\d+\.\d+$`. -/
def isFloatLit (cs : List Char) : Bool :=
  match splitChar '.' cs with
  | [a, b] => isIntLit a && isIntLit b
  | _ => false

def floatLitVal (cs : List Char) : JsRat :=
  match splitChar '.' cs with
  | [a, b] => JsRat.ofDec (digitsVal a) (digitsVal b) b.length
  | _ => JsRat.ofNat 0

def startsEndsC (cs : List Char) (a b : Char) : Bool :=
  headIs cs a && lastIs cs b

def sliceInner (cs : List Char) : List Char := (cs.drop 1).dropLast

/-- `SQONValidation.parseArray`: split on commas, trim each item. -/
def parseArrayJS (content : String) : List String :=
  (splitCharS ',' content).map trimS

/-- `SQONValidation.parseObject`.  A pair without a colon feeds `undefined`
to `parseValue`, whose `startsWith` call then throws (`.error`); a
`parseValue` result is stored as-is, error objects included. -/
def parseObjectJS (content : String) : Except String (List (String × PVRes)) :=
  ((splitCharS ',' content).map trimS).foldlM
    (fun obj pair => do
      let parts := (splitChar ':' pair.data).map (fun p => strOf (trimChars p))
      let key := parts.getD 0 ""
      let parsedKey :=
        if startsEndsC key.data '"' '"' then strOf (sliceInner key.data) else key
      match parts.get? 1 with
      | none => .error "TypeError: Cannot read properties of undefined (reading startsWith)"
      | some v =>
        match parseValueChars v.data with
        | .crash m => .error m
        | r => .ok (objSet obj parsedKey r))
    []

/-- The `ruleName === 'default'` branch of `SQONValidation.parseRules`:
boolean/null literals spelled `TRUE`/`FALSE`/`NULL`.  `rv? = none` is the
JS `undefined` right-hand side of a clause without `=`, on which the
branch's `startsWith` call throws. -/
def clauseValueDefault (ruleName clause : String) (rv? : Option String) :
    Except String ClauseRes :=
  match rv? with
  | none => .error "TypeError: Cannot read properties of undefined (reading startsWith)"
  | some v =>
    let vc := v.data
    if v == "TRUE" then .ok (.val (.bool true))
    else if v == "FALSE" then .ok (.val (.bool false))
    else if v == "NULL" then .ok (.val .null)
    else if v == "undefined" then .ok (.val .undef)
    else if isIntLit vc then .ok (.val (.int (digitsVal vc)))
    else if isFloatLit vc then .ok (.val (.float (floatLitVal vc)))
    else if startsEndsC vc '[' ']' then
      let arrayContent := trimS (strOf (sliceInner vc))
      .ok (.val (.arr (if arrayContent == "" then [] else parseArrayJS arrayContent)))
    else if startsEndsC vc '\x7b' '\x7d' then
      let objectContent := trimS (strOf (sliceInner vc))
      if objectContent == "" then .ok (.val (.obj []))
      else do
        let o ← parseObjectJS objectContent
        .ok (.val (.obj o))
    else if startsEndsC vc '"' '"' then .ok (.val (.str (strOf (sliceInner vc))))
    else .ok (.diag ("Invalid format for value of '" ++ ruleName ++ "' in '" ++ clause ++ "'"))

/-- The branch of `SQONValidation.parseRules` for every rule name other
than `default`: boolean/null literals spelled `true`/`false`/`null`;
otherwise the same chain of forms as `clauseValueDefault`. -/
def clauseValueOther (ruleName clause : String) (rv? : Option String) :
    Except String ClauseRes :=
  match rv? with
  | none => .error "TypeError: Cannot read properties of undefined (reading startsWith)"
  | some v =>
    let vc := v.data
    if v == "true" || v == "false" then .ok (.val (.bool (v == "true")))
    else if v == "null" then .ok (.val .null)
    else if v == "undefined" then .ok (.val .undef)
    else if isIntLit vc then .ok (.val (.int (digitsVal vc)))
    else if isFloatLit vc then .ok (.val (.float (floatLitVal vc)))
    else if startsEndsC vc '[' ']' then
      let arrayContent := trimS (strOf (sliceInner vc))
      .ok (.val (.arr (if arrayContent == "" then [] else parseArrayJS arrayContent)))
    else if startsEndsC vc '\x7b' '\x7d' then
      let objectContent := trimS (strOf (sliceInner vc))
      if objectContent == "" then .ok (.val (.obj []))
      else do
        let o ← parseObjectJS objectContent
        .ok (.val (.obj o))
    else if startsEndsC vc '"' '"' then .ok (.val (.str (strOf (sliceInner vc))))
    else .ok (.diag ("Invalid format for value of '" ++ ruleName ++ "' in '" ++ clause ++ "'"))

/-- `SQONValidation.parseRules`: split the right-hand side on every comma,
split each clause on `=`, trim, and dispatch on `ruleName === 'default'`.
Returns the rule map and the diagnostics pushed while parsing. -/
def parseRules (pos : ℕ) (rulesStr : String) :
    Except String (List (String × RuleVal) × List Diag) :=
  (splitCharS ',' rulesStr).foldlM
    (fun acc clause => do
      let parts := (splitChar '=' clause.data).map (fun p => strOf (trimChars p))
      let ruleName := parts.getD 0 ""
      let rv? := parts.get? 1
      let res ←
        if ruleName == "default" then clauseValueDefault ruleName clause rv?
        else clauseValueOther ruleName clause rv?
      match res with
      | .val v => pure (objSet acc.1 ruleName v, acc.2)
      | .diag m => pure (acc.1, acc.2 ++ [Diag.mk (some (pos + 1)) m]))
    ([], [])

/-- A schema node as the validation compiler reads it: `type` is always an
array in every schema the repository builds (the source's
`Array.isArray(type)` re-wrap is the identity here). -/
inductive SchemaNode where
  | mk (type : List String) (properties : Option (List (String × SchemaNode)))
      (items : Option (List (String × SchemaNode)))
deriving Repr

abbrev SchemaMap := List (String × SchemaNode)

def SchemaNode.typeOf : SchemaNode → List String
  | .mk t _ _ => t

def SchemaNode.propsOf : SchemaNode → Option (List (String × SchemaNode))
  | .mk _ p _ => p

def SchemaNode.itemsOf : SchemaNode → Option (List (String × SchemaNode))
  | .mk _ _ i => i

/-- The recursive worker of `SQONValidation.getSchemaType`: descend through
`properties` for `Object` nodes and `items` for `ObjectArray` nodes; every
failure path returns the empty array (never `null`/`undefined`). -/
def processPart : SchemaMap → List String → List String
  | _, [] => []
  | current, [part] =>
    match current.lookup part with
    | some node => node.typeOf
    | none => []
  | current, part :: rest =>
    match current.lookup part with
    | some node =>
      if node.typeOf.contains "Object" && node.propsOf.isSome then
        processPart (node.propsOf.getD []) rest
      else if node.typeOf.contains "ObjectArray" && node.itemsOf.isSome then
        processPart (node.itemsOf.getD []) rest
      else []
    | none => []

def getSchemaType (schema : SchemaMap) (key : String) : List String :=
  processPart schema (splitCharS '.' key)

/-- The `validationKeywords` table the orchestrator (`parser.js`)
constructs and hands to `SQONValidation` — copied entry for entry.  Note it
has no entry for `default`, `isEqualTo`, `custom`, `matchesField` or
`maxSize`. -/
def validationKeywords : List (String × List String) := [
  ("minLength", ["String", "StringArray", "String[]", "ObjectArray", "Object[]", "Array", "Any[]", "[]", "Object", "NumberArray", "Number[]", "Uint8Array"]),
  ("maxLength", ["String", "StringArray", "String[]", "ObjectArray", "Object[]", "Array", "Any[]", "[]", "Object", "NumberArray", "Number[]", "Uint8Array"]),
  ("isDate", ["Date", "StringArray", "String[]", "NumberArray", "Number[]"]),
  ("minDate", ["Date", "StringArray", "String[]", "NumberArray", "Number[]"]),
  ("maxDate", ["Date", "StringArray", "String[]", "NumberArray", "Number[]"]),
  ("isBoolean", ["Boolean", "Array", "Any[]", "[]"]),
  ("hasProperties", ["Object", "ObjectArray", "Object[]"]),
  ("enum", ["Any"]),
  ("notNull", ["Any"]),
  ("pattern", ["Any"]),
  ("isUnique", ["Any"]),
  ("required", ["Any"]),
  ("isNull", ["Any"]),
  ("min", ["Number", "NumberArray", "Number[]", "Uint8Array"]),
  ("max", ["Number", "NumberArray", "Number[]", "Uint8Array"]),
  ("isPositive", ["Number", "NumberArray", "Number[]", "Uint8Array"]),
  ("isNegative", ["Number", "NumberArray", "Number[]", "Uint8Array"]),
  ("isNumeric", ["NumberArray", "Number[]", "Number"]),
  ("isInteger", ["Number", "NumberArray", "Number[]"]),
  ("isFloat", ["Number", "NumberArray", "Number[]"]),
  ("isEmail", ["String", "StringArray", "String[]"]),
  ("isURL", ["String", "String[]", "StringArray"]),
  ("isAlpha", ["String", "String[]", "StringArray"]),
  ("isAlphanumeric", ["String", "String[]", "StringArray"]),
  ("isIP", ["String", "String[]", "StringArray"]),
  ("trim", ["String", "String[]", "StringArray"]),
  ("lowercase", ["String", "String[]", "StringArray"]),
  ("uppercase", ["String", "String[]", "StringArray"])]

def RuleVal.isStr : RuleVal → Bool
  | .str _ => true
  | _ => false

def RuleVal.isNum : RuleVal → Bool
  | .int _ => true
  | .float _ => true
  | _ => false

def RuleVal.isBoolV : RuleVal → Bool
  | .bool _ => true
  | _ => false

def RuleVal.isArrV : RuleVal → Bool
  | .arr _ => true
  | _ => false

/-- JS `typeof v === 'object'`: objects, arrays and `null`. -/
def RuleVal.isObjLike : RuleVal → Bool
  | .obj _ => true
  | .arr _ => true
  | .null => true
  | _ => false

/-- Host-dependent `isValidDate(ruleValue)` inside the `default`/`isEqualTo`
value check.  The check is dead code under the orchestrator-supplied
`validationKeywords` table: those two names fail the table lookup and the
per-rule loop returns before reaching it, so the host behaviour is modelled
as a constant. -/
def hostDateCheckRV (_ : RuleVal) : Bool := false

def isValueTypeValid (schemaTypeArray : List String) (ruleValue : RuleVal) : Bool :=
  schemaTypeArray.any (fun t =>
    (t == "String" && ruleValue.isStr) ||
    ((t == "Number" || t == "NumberArray") && ruleValue.isNum) ||
    (t == "Boolean" && ruleValue.isBoolV) ||
    ((t == "Array" || t == "ObjectArray" || t == "AnyArray") && ruleValue.isArrV) ||
    (t == "Object" && ruleValue.isObjLike && !ruleValue.isArrV) ||
    (t == "Date" && hostDateCheckRV ruleValue))

/-- JS `parts[parts.length - 2]`: `undefined` when the path has one part. -/
def secondLast (parts : List String) : Option String :=
  if parts.length < 2 then none else parts.get? (parts.length - 2)

def joinComma : List String → String
  | [] => ""
  | [s] => s
  | s :: rest => s ++ ", " ++ joinComma rest

/-- `SQONValidation.validateObjectArrayItems` (looks the array key up in
the top-level schema, as the source does). -/
def validateObjectArrayItems (schema : SchemaMap) (pos : ℕ) (key : String)
    (rules : List (String × RuleVal)) : List Diag :=
  let parts := splitCharS '.' key
  match secondLast parts with
  | none => []
  | some arrayKey =>
    match (schema.lookup arrayKey).bind SchemaNode.itemsOf with
    | none => []
    | some _ =>
      rules.foldl (fun errs (p : String × RuleVal) =>
        match validationKeywords.lookup p.1 with
        | some validTypes =>
          if !(validTypes.contains "Object") then
            errs ++ [Diag.mk (some (pos + 1))
              ("Validation '" ++ p.1 ++ "' is not applicable to type 'ObjectArray' items for key '" ++ key ++ "'")]
          else errs
        | none => errs) []

/-- `SQONValidation.validateObjectProperties`. -/
def validateObjectProperties (schema : SchemaMap) (pos : ℕ) (key : String)
    (rules : List (String × RuleVal)) : List Diag :=
  let parts := splitCharS '.' key
  let lastPart := parts.getLastD ""
  match secondLast parts with
  | none => []
  | some objectKey =>
    match (schema.lookup objectKey).bind SchemaNode.propsOf with
    | none => []
    | some schemaProperties =>
      rules.foldl (fun errs (p : String × RuleVal) =>
        match validationKeywords.lookup p.1, schemaProperties.lookup lastPart with
        | some validTypes, some propSchema =>
          if !(propSchema.typeOf.any (fun t => validTypes.contains t || validTypes.contains "Any")) then
            errs ++ [Diag.mk (some (pos + 1))
              ("Validation '" ++ p.1 ++ "' is not applicable to property '" ++ lastPart ++ "' of Object for key '" ++ key ++ "'")]
          else errs
        | _, _ => errs) []

/-- JS truthiness of the value `getSchemaType` returns: it is always an
array (possibly empty) and every array is truthy, so the source's
`if (!schemaTypeArray)` guard — the "Schema type not found" diagnostic —
can never fire.  The guard is embedded with that truthiness. -/
def jsArrayIsFalsy (_ : List String) : Bool := false

/-- `SQONValidation.validateRulesAgainstSchema`, loop for loop. -/
def validateRulesAgainstSchema (schema : SchemaMap) (pos : ℕ) (key : String)
    (rules : List (String × RuleVal)) : List Diag :=
  let schemaTypeArray := getSchemaType schema key
  if jsArrayIsFalsy schemaTypeArray then
    [Diag.mk (some (pos + 1)) ("Schema type not found for '" ++ key ++ "'")]
  else
    rules.foldl (fun errs (p : String × RuleVal) =>
      match validationKeywords.lookup p.1 with
      | none =>
        errs ++ [Diag.mk (some (pos + 1)) ("Validation rule '" ++ p.1 ++ "' is not defined.")]
      | some validTypes =>
        let errs :=
          if !(validTypes.contains "Any" || schemaTypeArray.any (fun t => validTypes.contains t)) then
            errs ++ [Diag.mk (some (pos + 1))
              ("Validation '" ++ p.1 ++ "' is not applicable to types for key '" ++ key ++ "'")]
          else errs
        let errs :=
          if p.1 == "default" || p.1 == "isEqualTo" then
            if !(isValueTypeValid schemaTypeArray p.2) then
              errs ++ [Diag.mk (some (pos + 1))
                ("Invalid value type for '" ++ p.1 ++ "' in '" ++ key ++ "'. Expected one of: " ++ joinComma schemaTypeArray)]
            else errs
          else errs
        let errs :=
          if schemaTypeArray.contains "ObjectArray" then
            errs ++ validateObjectArrayItems schema pos key rules
          else if schemaTypeArray.contains "Object" then
            errs ++ validateObjectProperties schema pos key rules
          else errs
        errs) []

/-- A node of the compiled rule tree (`this.validations`): an optional
`rules` map plus nested children, exactly the JS object shape. -/
inductive VNode where
  | mk (rules : Option (List (String × RuleVal))) (children : List (String × VNode))
deriving Repr

abbrev VTree := List (String × VNode)

def mergeRules (old newRules : List (String × RuleVal)) : List (String × RuleVal) :=
  newRules.foldl (fun acc (p : String × RuleVal) => objSet acc p.1 p.2) old

/-- `SQONValidation.addValidation`: walk the dot-path, creating bare nodes
for intermediate parts and spread-merging `rules` at the last part. -/
def addValidationGo : VTree → List String → List (String × RuleVal) → VTree
  | tree, [], _ => tree
  | tree, [part], rules =>
    (match tree.lookup part with
     | none => objSet tree part (VNode.mk (some (mergeRules [] rules)) [])
     | some (VNode.mk r ch) => objSet tree part (VNode.mk (some (mergeRules (r.getD []) rules)) ch))
  | tree, part :: rest, rules =>
    (match tree.lookup part with
     | none => objSet tree part (VNode.mk none (addValidationGo [] rest rules))
     | some (VNode.mk r ch) => objSet tree part (VNode.mk r (addValidationGo ch rest rules)))

def addValidation (tree : VTree) (key : String) (rules : List (String × RuleVal)) : VTree :=
  addValidationGo tree (splitCharS '.' key) rules

/-- `SQONValidation.processValidationLine`: parse the rules, cross-check
them, and merge only when the line produced no diagnostic bearing its own
line number. -/
def processValidationLine (schema : SchemaMap) (pos : ℕ) (line : String)
    (validations : VTree) (errors : List Diag) : Except String (VTree × List Diag) :=
  if !containsArrow line.data then
    .ok (validations, errors ++ [Diag.mk (some (pos + 1)) ("Invalid format: " ++ line)])
  else do
    let parts := (splitArrow line.data).map (fun p => strOf (trimChars p))
    let key := parts.getD 0 ""
    let rulesStr := parts.getD 1 ""
    let (rules, ruleDiags) ← parseRules pos rulesStr
    let errors := errors ++ ruleDiags ++ validateRulesAgainstSchema schema pos key rules
    if errors.any (fun d => d.line == some (pos + 1)) then .ok (validations, errors)
    else .ok (addValidation validations key rules, errors)

/-- The `while` loop of `SQONValidation.parseValidation`: stop at `@end`
(cursor left on it), skip `!#` comments and blank lines, process `->`
lines, flag anything else. -/
def pvLoop (schema : SchemaMap) : List String → ℕ → VTree → List Diag →
    Except String (VTree × List Diag × ℕ)
  | [], pos, vals, errs => .ok (vals, errs, pos)
  | l :: rest, pos, vals, errs =>
    let line := trimS l
    if line == "@end" then .ok (vals, errs, pos)
    else if isPrefixC "!#".data line.data then pvLoop schema rest (pos + 1) vals errs
    else if containsArrow line.data then do
      let (vals2, errs2) ← processValidationLine schema pos line vals errs
      pvLoop schema rest (pos + 1) vals2 errs2
    else if line != "" then
      pvLoop schema rest (pos + 1) vals
        (errs ++ [Diag.mk (some (pos + 1)) ("Invalid validation line: \"" ++ line ++ "\"")])
    else pvLoop schema rest (pos + 1) vals errs

/-- `SQONValidation.parseValidation` on a fresh instance: empty `validations`
and `errors`, cursor at `position`.  Returns the rule tree, the
diagnostics and the final cursor. -/
def parseValidationRun (schema : SchemaMap) (lines : List String) (position : ℕ) :
    Except String (VTree × List Diag × ℕ) :=
  pvLoop schema (lines.drop position) position [] []


/-! ### `SQON.parseLines`: the document orchestrator

The schema and record compilers (`SQONSchema`, `SQONRecords`) are separate
modules not among the repository files here; the orchestrator is therefore
parameterised by their contracts (`SParserT`, `RParserT`) — every property
stated about it below either never invokes them or holds for all of them.
The validation compiler is the embedded `parseValidationRun` with the
orchestrator's `validationKeywords` table. -/

abbrev SParserT := List String → ℕ → SchemaMap × List Diag × List String × ℕ

abbrev RParserT (Rec : Type) := List String → ℕ → List Rec × List Diag × ℕ

structure OSt (Rec : Type) where
  lines : List String
  position : ℕ
  parsedSchema : SchemaMap
  validations : VTree
  records : List Rec
  errors : List Diag
  sectionOrder : List String
  strict : Bool

structure OResult (Rec : Type) where
  strict : Bool
  schema : SchemaMap
  validations : VTree
  records : List Rec
  errors : List Diag

/-- `MAX_ERRORS` of `parser.js`. -/
def maxErrors : ℕ := 50

/-- `this.errors.push(...results.errors.slice(0, this.MAX_ERRORS))`: a
section's diagnostics are appended capped at `maxErrors`. -/
def pushCapped (errors sectionErrors : List Diag) : List Diag :=
  errors ++ sectionErrors.take maxErrors

/-- `SQON.checkSectionOrder`.  The source's `@records`-after-`@validations`
test reads `includes('@validations') && !includes('@validations')`, which is
contradictory and can never push; it is embedded as written. -/
def checkSectionOrder {Rec : Type} (st : OSt Rec) (sec : String) : OSt Rec :=
  if sec == "@schema" then
    let errs :=
      if st.sectionOrder.contains "@schema" then
        st.errors ++ [Diag.mk (some (st.position + 1)) "'@schema' is already opened but not closed."]
      else st.errors
    { st with errors := errs, sectionOrder := st.sectionOrder ++ ["@schema"] }
  else if sec == "@validations" then
    let errs :=
      if !(st.sectionOrder.contains "@schema") then
        st.errors ++ [Diag.mk (some (st.position + 1)) "'@validations' must come after '@schema'."]
      else st.errors
    let errs :=
      if st.sectionOrder.contains "@validations" then
        errs ++ [Diag.mk (some (st.position + 1)) "'@validations' is already opened but not closed."]
      else errs
    { st with errors := errs, sectionOrder := st.sectionOrder ++ ["@validations"] }
  else if sec == "@records" then
    let errs :=
      if !(st.sectionOrder.contains "@schema") then
        st.errors ++ [Diag.mk (some (st.position + 1)) "'@records' must come after '@schema'."]
      else st.errors
    let errs :=
      if st.sectionOrder.contains "@validations" && !(st.sectionOrder.contains "@validations") then
        errs ++ [Diag.mk (some (st.position + 1)) "'@records' must come after '@validations'."]
      else errs
    let errs :=
      if st.sectionOrder.contains "@records" then
        errs ++ [Diag.mk (some (st.position + 1)) "'@records' is already opened but not closed."]
      else errs
    { st with errors := errs, sectionOrder := st.sectionOrder ++ ["@records"] }
  else st

/-- JS truthiness of `this.parsedSchema`: initialised to `{}` and only ever
reassigned to the schema compiler's result object, both truthy, so the
source's end-of-input guard `if (!this.parsedSchema)` — the one that would
push "Missing required section: '@schema'" — can never fire.  The guard is
embedded with that truthiness. -/
def jsObjFalsy (_ : SchemaMap) : Bool := false

/-- The `while` loop of `SQON.parseLines`, one fuel unit per iteration
(the JS loop's progress depends on the positions the sub-compilers return;
`parseLinesRun` supplies enough fuel for every run that terminates without
a sub-compiler moving the cursor backwards). -/
def parseLinesFuel {Rec : Type} (sp : SParserT) (rp : RParserT Rec) (mode : Option String) :
    ℕ → OSt Rec → Except String (OResult Rec)
  | 0, _ => .error "embedding fuel exhausted"
  | fuel + 1, st =>
    if st.position < st.lines.length then
      let line := st.lines.getD st.position ""
      if startsWithS line "*STRICT=" then
        match ((splitCharS '=' line).get? 1).map (fun s => toUpperS (trimS s)) with
        | some sv =>
          if sv == "TRUE" then
            if mode.isSome then .error "Strict-Mode is enabled, please turn it off."
            else parseLinesFuel sp rp mode fuel { st with strict := true, position := st.position + 1 }
          else if sv == "FALSE" then
            parseLinesFuel sp rp mode fuel { st with strict := false, position := st.position + 1 }
          else
            parseLinesFuel sp rp mode fuel { st with
              errors := st.errors ++ [Diag.mk (some (st.position + 1))
                ("Invalid *STRICT value: " ++ sv ++ ". Expected TRUE or FALSE.")],
              position := st.position + 1 }
        | none =>
          parseLinesFuel sp rp mode fuel { st with
            errors := st.errors ++ [Diag.mk (some (st.position + 1))
              "Invalid *STRICT value: undefined. Expected TRUE or FALSE."],
            position := st.position + 1 }
      else if line == "@schema" then
        if mode == some "schema" then
          match sp st.lines (st.position + 1) with
          | (ps, errs2, _, _) =>
            .ok ⟨st.strict, ps, [], [], pushCapped st.errors errs2⟩
        else if mode.isNone then
          let st := checkSectionOrder st "@schema"
          match sp st.lines (st.position + 1) with
          | (ps, errs2, lines2, pos2) =>
            parseLinesFuel sp rp mode fuel { st with
              parsedSchema := ps, errors := pushCapped st.errors errs2,
              lines := lines2, position := pos2 + 1 }
        else parseLinesFuel sp rp mode fuel { st with position := st.position + 1 }
      else if line == "@validations" then
        -- source `parser.js` line 251: the guard tests `section === 'schema'`,
        -- not `'validations'`; embedded as written
        if mode == some "schema" then do
          let (v, errs2, _) ← parseValidationRun st.parsedSchema st.lines (st.position + 1)
          .ok ⟨st.strict, [], v, [], pushCapped st.errors errs2⟩
        else if mode.isNone then do
          let st := checkSectionOrder st "@validations"
          let (v, errs2, pos2) ← parseValidationRun st.parsedSchema st.lines (st.position + 1)
          parseLinesFuel sp rp mode fuel { st with
            validations := v, errors := pushCapped st.errors errs2, position := pos2 + 1 }
        else parseLinesFuel sp rp mode fuel { st with position := st.position + 1 }
      else if line == "@records" then
        if mode == some "records" then
          match rp st.lines (st.position + 1) with
          | (recs, errs2, _) =>
            .ok ⟨st.strict, [], [], recs, pushCapped st.errors errs2⟩
        else if mode.isNone then
          let st := checkSectionOrder st "@records"
          match rp st.lines (st.position + 1) with
          | (recs, errs2, pos2) =>
            parseLinesFuel sp rp mode fuel { st with
              records := recs, errors := pushCapped st.errors errs2, position := pos2 + 1 }
        else parseLinesFuel sp rp mode fuel { st with position := st.position + 1 }
      else if line == "@end" then
        if mode.isNone then
          match st.sectionOrder.getLast? with
          | none =>
            parseLinesFuel sp rp mode fuel { st with
              errors := st.errors ++ [Diag.mk (some (st.position + 1))
                "Unexpected '@end' without an open section."],
              position := st.position + 1 }
          | some lastSection =>
            let st := { st with sectionOrder := st.sectionOrder.dropLast }
            let st :=
              if lastSection != "@schema" && lastSection != "@validations"
                  && lastSection != "@records" then
                { st with errors := st.errors ++ [Diag.mk (some (st.position + 1))
                  ("Unexpected '@end' for section: " ++ lastSection ++ ".")] }
              else st
            parseLinesFuel sp rp mode fuel { st with position := st.position + 1 }
        else parseLinesFuel sp rp mode fuel { st with position := st.position + 1 }
      else
        if mode.isSome && mode != some "records" && mode != some "schema" then
          .error "Invalid section parsing!"
        else
          let st :=
            if mode.isNone then
              { st with errors := st.errors ++ [Diag.mk (some (st.position + 1))
                ("Unknown section or command: \"" ++ line ++ "\"")] }
            else st
          parseLinesFuel sp rp mode fuel { st with position := st.position + 1 }
    else
      if mode.isNone then
        let errs :=
          if jsObjFalsy st.parsedSchema then
            st.errors ++ [Diag.mk none "Missing required section: '@schema'"]
          else st.errors
        let errs :=
          if st.records.length == 0 then
            errs ++ [Diag.mk none "Missing required section: '@records'"]
          else errs
        .ok ⟨st.strict, st.parsedSchema, st.validations, st.records, errs⟩
      else .ok ⟨st.strict, st.parsedSchema, st.validations, st.records, st.errors⟩

def initialOSt {Rec : Type} (lines : List String) : OSt Rec :=
  ⟨lines, 0, [], [], [], [], [], false⟩

/-- `SQON.parseLines` on the trimmed, non-empty input lines `parse()`
produces, with the caller-requested single-section `mode`. -/
def parseLinesRun {Rec : Type} (sp : SParserT) (rp : RParserT Rec) (mode : Option String)
    (lines : List String) : Except String (OResult Rec) :=
  parseLinesFuel sp rp mode (lines.length + 1) (initialOSt lines)

/-- A vacuous schema compiler for closed instantiations of orchestrator
properties whose inputs never reach the schema section. -/
def spNop : SParserT := fun lines pos => ([], [], lines, pos)

/-- A vacuous record compiler, same purpose as `spNop`. -/
def rpNop : RParserT Unit := fun _ pos => ([], [], pos)

def resultErrors {Rec : Type} : Except String (OResult Rec) → List Diag
  | .ok r => r.errors
  | .error _ => []

def doc60 : List String := ["@validations"] ++ List.replicate 60 "x" ++ ["@end"]


/-! ### `Validator`: the runtime validator (shape pass and rule pass) -/

/-- A runtime JS value as the validator sees it. -/
inductive JsVal where
  | str (s : String)
  | num (q : JsRat)
  | bool (b : Bool)
  | null
  | undef
  | date (t : ℤ)
  | buf (bytes : List ℕ)
  | u8 (bytes : List ℕ)
  | arr (elems : List JsVal)
  | obj (fields : List (String × JsVal))

/-- JS property read `data[field]` (and the optional chain
`value?.[key]`): association-list lookup on objects, `undefined`
elsewhere.  Built-in properties of non-object values (such as
`"abc".length`) are not modelled; nothing stated reads one. -/
def jsGet : JsVal → String → JsVal
  | .obj fields, k => (fields.lookup k).getD .undef
  | _, _ => .undef

def JsVal.isStrV : JsVal → Bool
  | .str _ => true
  | _ => false

def JsVal.isNumV : JsVal → Bool
  | .num _ => true
  | _ => false

def JsVal.isBoolJ : JsVal → Bool
  | .bool _ => true
  | _ => false

def JsVal.isNullV : JsVal → Bool
  | .null => true
  | _ => false

def JsVal.isUndefV : JsVal → Bool
  | .undef => true
  | _ => false

def JsVal.isDateV : JsVal → Bool
  | .date _ => true
  | _ => false

def JsVal.isBufV : JsVal → Bool
  | .buf _ => true
  | _ => false

def JsVal.isU8V : JsVal → Bool
  | .u8 _ => true
  | _ => false

def JsVal.isArrJ : JsVal → Bool
  | .arr _ => true
  | _ => false

/-- JS `typeof v === 'object'` (true for objects, arrays, dates, buffers
and `null`). -/
def JsVal.isObjTypeof : JsVal → Bool
  | .obj _ => true
  | .arr _ => true
  | .date _ => true
  | .buf _ => true
  | .u8 _ => true
  | .null => true
  | _ => false

def JsVal.arrAllStr : JsVal → Bool
  | .arr l => l.all JsVal.isStrV
  | _ => false

def JsVal.arrAllNum : JsVal → Bool
  | .arr l => l.all JsVal.isNumV
  | _ => false

/-- The `validateType` closure of `Validator.validateSchema`.  Its
`Array`/`Any[]`/`[]` case is an early `return Array.isArray(value)` that
short-circuits the remaining type tags even when false — embedded as
written. -/
def validateType : List String → JsVal → Bool
  | [], _ => false
  | t :: rest, v =>
    if t == "Any" then true
    else if t == "String" && v.isStrV then true
    else if t == "Number" && v.isNumV then true
    else if t == "Boolean" && v.isBoolJ then true
    else if t == "Null" && v.isNullV then true
    else if t == "undefined" && v.isUndefV then true
    else if t == "Date" && v.isDateV then true
    else if t == "Binary" && v.isBufV then true
    else if t == "Uint8Array" && v.isU8V then true
    else if t == "StringArray" && v.isArrJ && v.arrAllStr then true
    else if t == "NumberArray" && v.isArrJ && v.arrAllNum then true
    else if t == "ObjectArray" && v.isArrJ then true
    else if t == "Array" || t == "Any[]" || t == "[]" then v.isArrJ
    else if t == "Object" && v.isObjTypeof && !v.isNullV && !v.isArrJ then true
    else validateType rest v

/-- A validator diagnostic `{ valid: false, field, message }` (the `valid`
member is the constant `false` on every pushed object and is omitted). -/
structure VErr where
  field : String
  message : String
deriving DecidableEq, Repr

/-- A schema definition as the runtime validator reads it (`items` is a
single definition here, unlike the compile-time schema tree). -/
inductive VSchemaDef where
  | mk (type : List String) (properties : Option (List (String × VSchemaDef)))
      (items : Option VSchemaDef)

def VSchemaDef.typeOf : VSchemaDef → List String
  | .mk t _ _ => t

def VSchemaDef.propsOf : VSchemaDef → Option (List (String × VSchemaDef))
  | .mk _ p _ => p

def VSchemaDef.itemsOf : VSchemaDef → Option VSchemaDef
  | .mk _ _ i => i

/-- `Validator.validateSchema` with explicit recursion fuel (the JS
recursion is bounded by the schema tree depth; every property stated below
either holds for all fuel or instantiates it concretely).  The nested
`properties` call inspects the shared error list, so a property of a later
field is reported as failed whenever any earlier error exists — embedded
faithfully. -/
def vsSchema (fuel : ℕ) (schema : List (String × VSchemaDef)) (data : JsVal)
    (errs0 : List VErr) : Except String (List VErr) :=
  match fuel with
  | 0 => .error "embedding fuel exhausted"
  | fuel + 1 =>
    schema.foldlM (fun errs (p : String × VSchemaDef) => do
      let key := p.1
      let sdef := p.2
      let value := jsGet data key
      if !validateType sdef.typeOf value then
        pure (errs ++ [VErr.mk key
          ("Field " ++ key ++ " does not match schema type: " ++ joinComma sdef.typeOf)])
      else do
        let errs ←
          match sdef.propsOf with
          | some props =>
            if sdef.typeOf.contains "Object" then
              props.foldlM (fun errs (q : String × VSchemaDef) => do
                let inner ← vsSchema fuel [(q.1, q.2)] value errs
                if inner.length == 0 then pure inner
                else pure (inner ++ [VErr.mk (key ++ "." ++ q.1)
                  ("Property " ++ q.1 ++ " validation failed")])) errs
            else pure errs
          | none => pure errs
        match sdef.itemsOf with
        | some idef =>
          match value with
          | .arr items =>
            pure (items.foldl (fun errs item =>
              if !validateType idef.typeOf item then
                errs ++ [VErr.mk key ("Array field " ++ key ++ " contains invalid items")]
              else errs) errs)
          | _ => pure errs
        | none => pure errs) errs0

/-- The `validationKeywords` table local to `Validator.validateFields`
(distinct from the orchestrator's table), copied entry for entry. -/
def validatorKeywords : List (String × List String) := [
  ("custom", ["Any"]),
  ("default", ["Any"]),
  ("isNull", ["Any"]),
  ("min", ["Number", "NumberArray", "Uint8Array"]),
  ("max", ["Number", "NumberArray", "Uint8Array"]),
  ("minLength", ["String", "StringArray", "ObjectArray", "Array", "Object", "NumberArray", "Uint8Array"]),
  ("maxLength", ["String", "StringArray", "ObjectArray", "Array", "Object", "NumberArray", "Uint8Array"]),
  ("maxSize", ["Binary", "Array", "StringArray", "NumberArray", "ObjectArray", "Object", "Uint8Array"]),
  ("required", ["Any"]),
  ("isEqualTo", ["Any"]),
  ("isDate", ["Date"]),
  ("isPositive", ["Number", "NumberArray", "Uint8Array"]),
  ("isNegative", ["Number", "NumberArray", "Uint8Array"]),
  ("isUnique", ["Any"]),
  ("hasProperties", ["Object", "ObjectArray"]),
  ("notNull", ["Any"]),
  ("pattern", ["String"]),
  ("isEmail", ["String", "StringArray"]),
  ("isURL", ["String"]),
  ("isAlpha", ["String"]),
  ("isNumeric", ["String"]),
  ("isAlphanumeric", ["String"]),
  ("isInteger", ["Number"]),
  ("isFloat", ["Number"]),
  ("isBoolean", ["Boolean"]),
  ("isIP", ["String"]),
  ("enum", ["Any"]),
  ("minDate", ["Date"]),
  ("maxDate", ["Date"]),
  ("matchesField", ["Any"]),
  ("trim", ["String"]),
  ("lowercase", ["String"]),
  ("uppercase", ["String"])]

/-- A caller-supplied rule value for the runtime validator.  `pred`
represents the compiled regular expression a `pattern` rule carries (host
regex construction is not modelled; nothing stated evaluates one).
`dateRv` carries the timestamp `new Date(ruleValue)` yields (`none` for an
invalid date; host date-string parsing is not modelled). -/
inductive RVal where
  | num (q : JsRat)
  | str (s : String)
  | bool (b : Bool)
  | null
  | undef
  | list (items : List RVal)
  | pred (test : String → Bool)
  | dateRv (t : Option ℤ)

def jsRatEq (a b : JsRat) : Bool := a.num * (b.den : ℤ) == b.num * (a.den : ℤ)

def jsRatLt (a b : JsRat) : Bool := a.num * (b.den : ℤ) < b.num * (a.den : ℤ)

def jsRatLe (a b : JsRat) : Bool := a.num * (b.den : ℤ) ≤ b.num * (a.den : ℤ)

/-- JS `===` between a rule value and a data value (`Array.includes` uses
SameValueZero, which agrees on the primitive values modelled here; two
composite values parsed from text are distinct references and never
equal). -/
def eqRvJs : RVal → JsVal → Bool
  | .num a, .num b => jsRatEq a b
  | .str a, .str b => a == b
  | .bool a, .bool b => a == b
  | .null, .null => true
  | .undef, .undef => true
  | _, _ => false

/-- JS `value < ruleValue` under the `typeof value === 'number'` guard:
numeric against numeric; against the other modelled rule values the JS
comparison is false or coerces — coercion is not modelled (nothing stated
compares a number to a non-number rule value). -/
def jsValLtRv (v : JsVal) (rv : RVal) : Bool :=
  match v, rv with
  | .num q, .num q2 => jsRatLt q q2
  | _, _ => false

def jsValGtRv (v : JsVal) (rv : RVal) : Bool :=
  match v, rv with
  | .num q, .num q2 => jsRatLt q2 q
  | _, _ => false

def jsValGeRv (v : JsVal) (rv : RVal) : Bool :=
  match v, rv with
  | .num q, .num q2 => jsRatLe q2 q
  | _, _ => false

def jsValLeRv (v : JsVal) (rv : RVal) : Bool :=
  match v, rv with
  | .num q, .num q2 => jsRatLe q q2
  | _, _ => false

/-- JS `value.length`: `.error` is the TypeError thrown on `null` and
`undefined`; `none` is the `undefined` a number, boolean or date yields
(every comparison against it is false); `some` a real length.  An explicit
`length` property of a plain object is not modelled (nothing stated stores
one). -/
def jsLength : JsVal → Except String (Option ℕ)
  | .null => .error "TypeError: Cannot read properties of null (reading length)"
  | .undef => .error "TypeError: Cannot read properties of undefined (reading length)"
  | .str s => .ok (some s.length)
  | .arr l => .ok (some l.length)
  | .buf b => .ok (some b.length)
  | .u8 b => .ok (some b.length)
  | _ => .ok none

def jsLenLtRv (len : Option ℕ) (rv : RVal) : Bool :=
  match len, rv with
  | some n, .num q => jsRatLt (JsRat.ofNat n) q
  | _, _ => false

def jsLenGtRv (len : Option ℕ) (rv : RVal) : Bool :=
  match len, rv with
  | some n, .num q => jsRatLt q (JsRat.ofNat n)
  | _, _ => false

/-- JS `value <= 0` as `isPositive` evaluates it (numbers, and the numeric
coercions of booleans and `null`; other coercions are not modelled). -/
def jsLeZero : JsVal → Bool
  | .num q => q.num ≤ 0
  | .bool b => !b
  | .null => true
  | _ => false

/-- JS `value >= 0` as `isNegative` evaluates it. -/
def jsGeZero : JsVal → Bool
  | .num q => 0 ≤ q.num
  | .bool _ => true
  | .null => true
  | _ => false

/-- `new Set(value).size` under SameValueZero on the modelled values. -/
def dedupCount : List JsVal → List JsVal → ℕ
  | [], _ => 0
  | v :: rest, seen =>
    if seen.any (fun w => eqJsJs w v) then dedupCount rest seen
    else 1 + dedupCount rest (v :: seen)
where
  eqJsJs : JsVal → JsVal → Bool
    | .num a, .num b => jsRatEq a b
    | .str a, .str b => a == b
    | .bool a, .bool b => a == b
    | .null, .null => true
    | .undef, .undef => true
    | _, _ => false

def jsHasProp : JsVal → String → Bool
  | .obj fields, k => fields.any (fun p => p.1 == k)
  | _, _ => false

/-- The property-name strings of a `hasProperties` rule list (non-string
members would be coerced by the JS `in` operator; not modelled). -/
def rvPropNames : RVal → List String
  | .list items =>
    items.foldr (fun i acc =>
      match i with
      | .str s => s :: acc
      | _ => acc) []
  | _ => []

def rvRegexTest (rv : RVal) (s : String) : Bool :=
  match rv with
  | .pred f => f s
  | _ => true

def noWsStr (cs : List Char) : Bool := cs.all (fun c => !isWsC c)

def dotInsideAux : List Char → Bool
  | c :: d :: rest => c == '.' || dotInsideAux (d :: rest)
  | _ => false

/-- `\S+\.\S+`: a dot with at least one character on each side. -/
def dotInside : List Char → Bool
  | _ :: rest => dotInsideAux rest
  | [] => false

def emailTailScan : List Char → Bool
  | [] => false
  | c :: rest => (c == '@' && dotInside rest) || emailTailScan rest

/-- The regex `/^\S+@\S+\.\S+$/` of the `isEmail` rule. -/
def emailRe (s : String) : Bool :=
  let cs := s.data
  noWsStr cs &&
    (match cs with
     | _ :: rest => emailTailScan rest
     | [] => false)

def isLineTerm (c : Char) : Bool :=
  c == '\n' || c == '\r' || c.toNat == 0x2028 || c.toNat == 0x2029

def urlAfterScheme : List Char → Bool
  | c1 :: c2 :: rest =>
    !(isWsC c1 || c1 == '/' || c1 == '$' || c1 == '.' || c1 == '?' || c1 == '#')
      && !isLineTerm c2 && rest.all (fun c => !isWsC c)
  | _ => false

/-- The regex `/^(https?|ftp):\/\/[^\s\/$.?#].[^\s]*$/` of the `isURL`
rule. -/
def urlRe (s : String) : Bool :=
  let cs := s.data
  if isPrefixC "http://".data cs then urlAfterScheme (cs.drop 7)
  else if isPrefixC "https://".data cs then urlAfterScheme (cs.drop 8)
  else if isPrefixC "ftp://".data cs then urlAfterScheme (cs.drop 6)
  else false

/-- The regex `/^[A-Za-z]+$/` of the `isAlpha` rule. -/
def isAlphaStr (s : String) : Bool :=
  !s.data.isEmpty && s.data.all (fun c =>
    (65 ≤ c.toNat && c.toNat ≤ 90) || (97 ≤ c.toNat && c.toNat ≤ 122))

def jsNewDateOf : RVal → Option ℤ
  | .dateRv t => t
  | _ => none

/-- JS string interpolation of a rule value into a message; integral
numbers print as their digits (general double formatting is not modelled;
nothing stated inspects a message holding a non-integer value). -/
def rvToStr : RVal → String
  | .num q => if q.den == 1 then q.num.repr else "<non-integer>"
  | .str s => s
  | .bool b => if b then "true" else "false"
  | .null => "null"
  | .undef => "undefined"
  | .list items => joinCommaTight (items.map rvToStrShallow)
  | .pred _ => "<regex>"
  | .dateRv _ => "<date>"
where
  rvToStrShallow : RVal → String
    | .num q => if q.den == 1 then q.num.repr else "<non-integer>"
    | .str s => s
    | .bool b => if b then "true" else "false"
    | .null => "null"
    | .undef => "undefined"
    | _ => ""
  joinCommaTight : List String → String
    | [] => ""
    | [x] => x
    | x :: rest => x ++ "," ++ joinCommaTight rest

/-- One case of the `switch (rule)` in `Validator.validateFields`.  The
switch has no case for `custom`, `default`, `isEqualTo`, `matchesField`,
`isInteger`, `isFloat`, `isAlphanumeric`, `isIP`, `trim`, `lowercase` or
`uppercase`, so those table-listed rules fall to the `default:` label and
push "Unknown validation rule" — embedded as written. -/
def evalRule (field : String) (value : JsVal) (rule : String) (rv : RVal)
    (errs : List VErr) : Except String (List VErr) :=
  if !(validatorKeywords.any (fun p => p.1 == rule)) then
    .ok (errs ++ [VErr.mk field ("Unknown validation rule: " ++ rule)])
  else if rule == "required" then
    .ok (if value.isUndefV || value.isNullV then
      errs ++ [VErr.mk field (field ++ " is required")] else errs)
  else if rule == "isNull" then
    .ok (if !value.isNullV then
      errs ++ [VErr.mk field (field ++ " must be null")] else errs)
  else if rule == "notNull" then
    .ok (if value.isNullV then
      errs ++ [VErr.mk field (field ++ " must not be null")] else errs)
  else if rule == "min" then
    .ok (if value.isNumV then
        (if jsValLtRv value rv then
          errs ++ [VErr.mk field (field ++ " should be at least " ++ rvToStr rv)] else errs)
      else if value.isArrJ
          && ((validatorKeywords.lookup rule).getD []).contains "NumberArray" then
        (match value with
         | .arr items =>
           if !(items.all (fun it => it.isNumV && jsValGeRv it rv)) then
             errs ++ [VErr.mk field (field ++ " must have all numbers at least " ++ rvToStr rv)]
           else errs
         | _ => errs)
      else
        (match value with
         | .u8 bytes =>
           if !(bytes.all (fun b => jsValGeRv (.num (JsRat.ofNat b)) rv)) then
             errs ++ [VErr.mk field
               (field ++ " must have all Uint8Array elements at least " ++ rvToStr rv)]
           else errs
         | _ => errs))
  else if rule == "max" then
    .ok (if value.isNumV then
        (if jsValGtRv value rv then
          errs ++ [VErr.mk field (field ++ " should not exceed " ++ rvToStr rv)] else errs)
      else if value.isArrJ
          && ((validatorKeywords.lookup rule).getD []).contains "NumberArray" then
        (match value with
         | .arr items =>
           if !(items.all (fun it => it.isNumV && jsValLeRv it rv)) then
             errs ++ [VErr.mk field
               (field ++ " must have all numbers no greater than " ++ rvToStr rv)]
           else errs
         | _ => errs)
      else
        (match value with
         | .u8 bytes =>
           if !(bytes.all (fun b => jsValLeRv (.num (JsRat.ofNat b)) rv)) then
             errs ++ [VErr.mk field
               (field ++ " must have all Uint8Array elements no greater than " ++ rvToStr rv)]
           else errs
         | _ => errs))
  else if rule == "minLength" then do
    let len ← jsLength value
    .ok (if jsLenLtRv len rv then
      errs ++ [VErr.mk field (field ++ " should have a minimum length of " ++ rvToStr rv)]
      else errs)
  else if rule == "maxLength" then do
    let len ← jsLength value
    .ok (if jsLenGtRv len rv then
      errs ++ [VErr.mk field (field ++ " should have a maximum length of " ++ rvToStr rv)]
      else errs)
  else if rule == "maxSize" then do
    let len ← jsLength value
    .ok (if jsLenGtRv len rv then
      errs ++ [VErr.mk field (field ++ " exceeds the maximum size of " ++ rvToStr rv)]
      else errs)
  else if rule == "isDate" then
    .ok (if !value.isDateV then
      errs ++ [VErr.mk field (field ++ " must be a valid date")] else errs)
  else if rule == "isPositive" then
    .ok (if jsLeZero value then
      errs ++ [VErr.mk field (field ++ " must be positive")] else errs)
  else if rule == "isNegative" then
    .ok (if jsGeZero value then
      errs ++ [VErr.mk field (field ++ " must be negative")] else errs)
  else if rule == "isUnique" then
    .ok (match value with
      | .arr items =>
        if !(dedupCount items [] == items.length) then
          errs ++ [VErr.mk field (field ++ " contains duplicate values")]
        else errs
      | _ => errs)
  else if rule == "hasProperties" then
    if value.isObjTypeof && !value.isNullV then
      match rv with
      | .list _ =>
        let missing := (rvPropNames rv).filter (fun p => !jsHasProp value p)
        .ok (if !(missing.length == 0) then
          errs ++ [VErr.mk field
            (field ++ " is missing required properties: " ++ joinComma missing)]
          else errs)
      | _ => .error "TypeError: ruleValue.filter is not a function"
    else .ok errs
  else if rule == "pattern" then
    .ok (match value with
      | .str s =>
        if !rvRegexTest rv s then
          errs ++ [VErr.mk field (field ++ " does not match the required pattern")]
        else errs
      | _ => errs)
  else if rule == "isEmail" then
    .ok (match value with
      | .str s =>
        if !emailRe s then
          errs ++ [VErr.mk field (field ++ " must be a valid email address")]
        else errs
      | _ => errs)
  else if rule == "isURL" then
    .ok (match value with
      | .str s =>
        if !urlRe s then
          errs ++ [VErr.mk field (field ++ " must be a valid URL")]
        else errs
      | _ => errs)
  else if rule == "isAlpha" then
    .ok (match value with
      | .str s =>
        if !isAlphaStr s then
          errs ++ [VErr.mk field (field ++ " must contain only alphabetic characters")]
        else errs
      | _ => errs)
  else if rule == "isNumeric" then
    .ok (match value with
      | .str s =>
        if !isIntLit s.data then
          errs ++ [VErr.mk field (field ++ " must contain only numeric characters")]
        else errs
      | _ => errs)
  else if rule == "isBoolean" then
    .ok (if !value.isBoolJ then
      errs ++ [VErr.mk field (field ++ " must be a boolean")] else errs)
  else if rule == "enum" then
    match rv with
    | .list items =>
      .ok (if !(items.any (fun i => eqRvJs i value)) then
        errs ++ [VErr.mk field (field ++ " must be one of " ++ rvToStr rv)] else errs)
    | _ => .error "TypeError: ruleValue.includes is not a function"
  else if rule == "minDate" then
    .ok (match value, jsNewDateOf rv with
      | .date t, some t2 =>
        if t < t2 then errs ++ [VErr.mk field (field ++ " must be after " ++ rvToStr rv)]
        else errs
      | _, _ => errs)
  else if rule == "maxDate" then
    .ok (match value, jsNewDateOf rv with
      | .date t, some t2 =>
        if t2 < t then errs ++ [VErr.mk field (field ++ " must be before " ++ rvToStr rv)]
        else errs
      | _, _ => errs)
  else
    .ok (errs ++ [VErr.mk field ("Unknown validation rule: " ++ rule)])

/-- A field's entry in `validateData`: its `rules` member and the nested
rule nodes the rest-spread collects. -/
inductive VInput where
  | mk (rules : Option (List (String × RVal))) (nested : List (String × VInput))

def VInput.rulesOf : VInput → Option (List (String × RVal))
  | .mk r _ => r

def VInput.nestedOf : VInput → List (String × VInput)
  | .mk _ n => n

def evalRules (field : String) (value : JsVal) :
    List (String × RVal) → List VErr → Except String (List VErr)
  | [], errs => .ok errs
  | (r, rv) :: rest, errs => do
    let errs2 ← evalRule field value r rv errs
    evalRules field value rest errs2

/-- `Validator.validateFields` with explicit recursion fuel (the JS
recursion is bounded by the nesting of `validateData`; every property
stated below either holds for all fuel or instantiates it concretely). -/
def vfFields (fuel : ℕ) (entries : List (String × VInput)) (data : JsVal)
    (errs0 : List VErr) : Except String (List VErr) :=
  match fuel with
  | 0 => .error "embedding fuel exhausted"
  | fuel + 1 =>
    entries.foldlM (fun errs (p : String × VInput) => do
      let field := p.1
      let value := jsGet data field
      let errs ←
        match p.2.rulesOf with
        | some rs => evalRules field value rs errs
        | none => pure errs
      p.2.nestedOf.foldlM (fun errs (q : String × VInput) => do
        let nestedValue := jsGet value q.1
        match nestedValue with
        | .arr items =>
          (items.enum.foldlM (fun errs (pr : ℕ × JsVal) =>
            let label := field ++ "[" ++ Nat.repr pr.1 ++ "]"
            vfFields fuel [(label, q.2)] (.obj [(label, pr.2)]) errs) errs)
        | _ =>
          let label := field ++ "." ++ q.1
          vfFields fuel [(label, q.2)] (.obj [(label, nestedValue)]) errs) errs) errs0

/-- The result object of `Validator.validate`: `errors` is present exactly
on the early returns, absent on the final `{ valid }` return. -/
structure VResult where
  valid : Bool
  errors : Option (List VErr)
deriving DecidableEq, Repr

/-- The tail of `Validator.validate` after the schema pass. -/
def validateTail (fuel : ℕ) (validateData : Option (List (String × VInput)))
    (data : JsVal) (errs : List VErr) : Except String VResult :=
  match validateData with
  | some vd => do
    let errs2 ← vfFields fuel vd data errs
    if !(errs2.length == 0) then pure (VResult.mk false (some errs2))
    else pure (VResult.mk (errs2.length == 0) none)
  | none => pure (VResult.mk (errs.length == 0) none)

/-- `Validator.validate`: reset errors, run the schema pass when a schema
is supplied and return early if it failed, then run the rule pass when
rules are supplied. -/
def validate (fuel : ℕ) (schema : Option (List (String × VSchemaDef)))
    (validateData : Option (List (String × VInput))) (data : JsVal) :
    Except String VResult :=
  match schema with
  | some s => do
    let errs ← vsSchema fuel s data []
    if !(errs.length == 0) then pure (VResult.mk false (some errs))
    else validateTail fuel validateData data errs
  | none => validateTail fuel validateData data []


/-! ### Facts about digit strings, towards the numeric-literal properties -/

theorem isDigitC_toNat {c : Char} (h : isDigitC c = true) :
    48 ≤ c.toNat ∧ c.toNat ≤ 57 := by
  simpa [isDigitC] using h

theorem digit_beq_ne {c d : Char} (h : isDigitC c = true)
    (hd : d.toNat < 48 ∨ 57 < d.toNat) : (c == d) = false := by
  obtain ⟨h1, h2⟩ := isDigitC_toNat h
  rw [beq_eq_false_iff_ne]
  intro e
  subst e
  omega

theorem beq_digit_ne {c d : Char} (h : isDigitC c = true)
    (hd : d.toNat < 48 ∨ 57 < d.toNat) : (d == c) = false := by
  obtain ⟨h1, h2⟩ := isDigitC_toNat h
  rw [beq_eq_false_iff_ne]
  intro e
  subst e
  omega

theorem isWsC_of_digit {c : Char} (h : isDigitC c = true) : isWsC c = false := by
  unfold isWsC
  rw [digit_beq_ne h (by decide), digit_beq_ne h (by decide), digit_beq_ne h (by decide),
    digit_beq_ne h (by decide), digit_beq_ne h (by decide), digit_beq_ne h (by decide)]
  rfl

theorem dropWhile_ws_digits (cs : List Char) (h : ∀ c ∈ cs, isDigitC c = true) :
    cs.dropWhile isWsC = cs := by
  cases cs with
  | nil => rfl
  | cons c rest => simp [List.dropWhile_cons, isWsC_of_digit (h c (by simp))]

theorem trimChars_digits (cs : List Char) (h : ∀ c ∈ cs, isDigitC c = true) :
    trimChars cs = cs := by
  unfold trimChars
  rw [dropWhile_ws_digits cs h]
  have h2 : cs.reverse.dropWhile isWsC = cs.reverse := by
    apply dropWhile_ws_digits
    intro c hc
    exact h c (List.mem_reverse.mp hc)
  rw [h2, List.reverse_reverse]

theorem takeDigitsAcc_digits (cs : List Char) (h : ∀ c ∈ cs, isDigitC c = true) :
    ∀ v n, takeDigitsAcc v n cs =
      (cs.foldl (fun a c => 10 * a + (c.toNat - 48)) v, n + cs.length, []) := by
  induction cs with
  | nil => intro v n; rfl
  | cons c rest ih =>
    intro v n
    have hc : isDigitC c = true := h c (by simp)
    simp only [takeDigitsAcc, hc, if_true, List.foldl_cons, List.length_cons]
    rw [ih (fun d hd => h d (by simp [hd]))]
    have : n + 1 + rest.length = n + (rest.length + 1) := by omega
    rw [this]

theorem radixValAux_digits (cs : List Char) (h : ∀ c ∈ cs, isDigitC c = true) :
    ∀ v, radixValAux 10 decDigit cs v =
      some (cs.foldl (fun a c => 10 * a + (c.toNat - 48)) v) := by
  induction cs with
  | nil => intro v; rfl
  | cons c rest ih =>
    intro v
    have hc : isDigitC c = true := h c (by simp)
    simp only [radixValAux, decDigit, hc, if_true, List.foldl_cons]
    exact ih (fun d hd => h d (by simp [hd])) _

theorem headIs_of_digits (cs : List Char) (h : ∀ c ∈ cs, isDigitC c = true) (d : Char)
    (hd : d.toNat < 48 ∨ 57 < d.toNat) : headIs cs d = false := by
  cases cs with
  | nil => rfl
  | cons c rest => exact digit_beq_ne (h c (by simp)) hd

theorem isPrefixC_cons_false {p c : Char} (ps rest : List Char) (h : (p == c) = false) :
    isPrefixC (p :: ps) (c :: rest) = false := by
  simp [isPrefixC, h]

theorem parseDecimal_digits (cs : List Char) (h0 : cs ≠ []) (h : ∀ c ∈ cs, isDigitC c = true) :
    parseDecimal cs = some (JsRat.ofNat (digitsVal cs), []) := by
  unfold parseDecimal
  rw [takeDigitsAcc_digits cs h 0 0]
  have hlen : (0 + cs.length == 0) = false := by
    cases cs with
    | nil => exact absurd rfl h0
    | cons c r => simp
  simp only [hlen, Bool.false_eq_true, if_false]
  rfl

theorem jsNumUnsignedDec_digits (cs : List Char) (h0 : cs ≠ [])
    (h : ∀ c ∈ cs, isDigitC c = true) :
    jsNumUnsignedDec cs = some (toJsNum (JsRat.ofNat (digitsVal cs))) := by
  unfold jsNumUnsignedDec
  have hinf : ¬ (cs = "Infinity".data) := by
    intro e
    have hc : isDigitC 'I' = true := by
      have := h
      rw [e] at this
      exact this 'I' (by decide)
    exact absurd hc (by decide)
  rw [if_neg ?_]
  · rw [parseDecimal_digits cs h0 h]
  · -- the if tests the Bool `cs == "Infinity".data` coerced to a Prop
    exact fun hcon => hinf (eq_of_beq hcon)

theorem jsNumUnsigned_digits (cs : List Char) (h0 : cs ≠ [])
    (h : ∀ c ∈ cs, isDigitC c = true) :
    jsNumUnsigned cs = some (toJsNum (JsRat.ofNat (digitsVal cs))) := by
  have hdrop : ∀ d ∈ cs.drop 1, isDigitC d = true :=
    fun d hd => h d (List.mem_of_mem_drop hd)
  have hx : headIs (cs.drop 1) 'x' = false := headIs_of_digits _ hdrop _ (by decide)
  have hX : headIs (cs.drop 1) 'X' = false := headIs_of_digits _ hdrop _ (by decide)
  have hb : headIs (cs.drop 1) 'b' = false := headIs_of_digits _ hdrop _ (by decide)
  have hB : headIs (cs.drop 1) 'B' = false := headIs_of_digits _ hdrop _ (by decide)
  have ho : headIs (cs.drop 1) 'o' = false := headIs_of_digits _ hdrop _ (by decide)
  have hO : headIs (cs.drop 1) 'O' = false := headIs_of_digits _ hdrop _ (by decide)
  unfold jsNumUnsigned
  simp only [hx, hX, hb, hB, ho, hO, Bool.or_self, Bool.or_false, Bool.and_false,
    Bool.false_eq_true, if_false]
  exact jsNumUnsignedDec_digits cs h0 h

theorem jsNumberChars_digits (cs : List Char) (h0 : cs ≠ [])
    (h : ∀ c ∈ cs, isDigitC c = true) :
    jsNumberChars cs = some (toJsNum (JsRat.ofNat (digitsVal cs))) := by
  unfold jsNumberChars
  simp only [trimChars_digits cs h]
  have hne : cs.isEmpty = false := by
    cases cs with
    | nil => exact absurd rfl h0
    | cons c r => rfl
  have hp : headIs cs '+' = false := headIs_of_digits cs h '+' (by decide)
  have hm : headIs cs '-' = false := headIs_of_digits cs h '-' (by decide)
  simp only [hne, hp, hm, Bool.false_eq_true, if_false]
  exact jsNumUnsigned_digits cs h0 h

theorem parseFloatChars_digits (cs : List Char) (h0 : cs ≠ [])
    (h : ∀ c ∈ cs, isDigitC c = true) :
    parseFloatChars cs = some (toJsNum (JsRat.ofNat (digitsVal cs))) := by
  unfold parseFloatChars
  simp only [dropWhile_ws_digits cs h]
  have hp : headIs cs '+' = false := headIs_of_digits cs h '+' (by decide)
  have hm : headIs cs '-' = false := headIs_of_digits cs h '-' (by decide)
  simp only [hp, hm, Bool.false_eq_true, if_false]
  unfold parseFloatSignless
  have hinf : isPrefixC "Infinity".data cs = false := by
    cases cs with
    | nil => exact absurd rfl h0
    | cons c rest =>
      show isPrefixC ('I' :: "nfinity".data) (c :: rest) = false
      exact isPrefixC_cons_false _ _ (beq_digit_ne (h c (by simp)) (by decide))
  simp only [hinf, Bool.false_eq_true, if_false]
  rw [parseDecimal_digits cs h0 h]

theorem jsBigIntChars_digits (cs : List Char) (h0 : cs ≠ [])
    (h : ∀ c ∈ cs, isDigitC c = true) :
    jsBigIntChars cs = some ((digitsVal cs : ℤ)) := by
  unfold jsBigIntChars
  simp only [trimChars_digits cs h]
  have hne : cs.isEmpty = false := by
    cases cs with
    | nil => exact absurd rfl h0
    | cons c r => rfl
  have hdrop : ∀ d ∈ cs.drop 1, isDigitC d = true :=
    fun d hd => h d (List.mem_of_mem_drop hd)
  have hp : headIs cs '+' = false := headIs_of_digits cs h '+' (by decide)
  have hm : headIs cs '-' = false := headIs_of_digits cs h '-' (by decide)
  have hx : headIs (cs.drop 1) 'x' = false := headIs_of_digits _ hdrop _ (by decide)
  have hX : headIs (cs.drop 1) 'X' = false := headIs_of_digits _ hdrop _ (by decide)
  have hb : headIs (cs.drop 1) 'b' = false := headIs_of_digits _ hdrop _ (by decide)
  have hB : headIs (cs.drop 1) 'B' = false := headIs_of_digits _ hdrop _ (by decide)
  have ho : headIs (cs.drop 1) 'o' = false := headIs_of_digits _ hdrop _ (by decide)
  have hO : headIs (cs.drop 1) 'O' = false := headIs_of_digits _ hdrop _ (by decide)
  simp only [hne, hp, hm, hx, hX, hb, hB, ho, hO, Bool.or_self, Bool.or_false,
    Bool.and_false, Bool.false_eq_true, if_false]
  unfold radixVal
  simp only [hne, Bool.false_eq_true, if_false]
  rw [radixValAux_digits cs h 0]
  rfl

theorem toJsNum_ofNat_inf (n : ℕ) (hbig : (2 ^ 1024 - 2 ^ 970 : ℕ) ≤ n) :
    toJsNum (JsRat.ofNat n) = .inf true := by
  unfold toJsNum JsRat.ofNat f64Overflow
  rw [if_pos]
  rw [Nat.one_shiftLeft, Nat.one_shiftLeft]
  simp only [Nat.cast_one, mul_one]
  exact_mod_cast hbig

theorem toJsNum_ofNat_fin (n : ℕ) (hsmall : n < 2 ^ 1024 - 2 ^ 970) :
    toJsNum (JsRat.ofNat n) = .fin (JsRat.ofNat n) := by
  have hb0 : (0 : ℕ) < 2 ^ 1024 - 2 ^ 970 := by omega
  unfold toJsNum JsRat.ofNat f64Overflow
  rw [if_neg ?_, if_neg ?_]
  · rw [Nat.one_shiftLeft, Nat.one_shiftLeft]
    simp only [Nat.cast_one, mul_one]
    intro hcon
    have h1 : (0 : ℤ) ≤ (n : ℤ) := by positivity
    have h2 : (0 : ℤ) < ((2 ^ 1024 - 2 ^ 970 : ℕ) : ℤ) := by exact_mod_cast hb0
    omega
  · rw [Nat.one_shiftLeft, Nat.one_shiftLeft]
    simp only [Nat.cast_one, mul_one]
    intro hcon
    have h1 : (2 ^ 1024 - 2 ^ 970 : ℕ) ≤ n := by exact_mod_cast hcon
    omega

theorem dblGt_toJsNum_ofNat (n : ℕ) :
    dblGtMaxSafe (toJsNum (JsRat.ofNat n)) = decide ((2 ^ 53 - 1 : ℕ) < n) := by
  have ha : (2 : ℕ) ^ 53 ≤ 2 ^ 970 := Nat.pow_le_pow_right (by norm_num) (by norm_num)
  have hb2 : (2 : ℕ) ^ 970 + 2 ^ 970 = 2 ^ 971 := by ring
  have hc2 : (2 : ℕ) ^ 971 ≤ 2 ^ 1024 := Nat.pow_le_pow_right (by norm_num) (by norm_num)
  by_cases hbig : (2 ^ 1024 - 2 ^ 970 : ℕ) ≤ n
  · rw [toJsNum_ofNat_inf n hbig]
    have h2 : (2 ^ 53 - 1 : ℕ) < n := by omega
    simp only [dblGtMaxSafe]
    exact (decide_eq_true h2).symm
  · rw [toJsNum_ofNat_fin n (by omega)]
    simp only [dblGtMaxSafe, JsRat.ofNat, Nat.cast_one, mul_one]
    rw [decide_eq_decide]
    have e54 : (1 <<< 54 : ℕ) = 18014398509481984 := by decide
    rw [e54]
    omega

theorem dblLt_toJsNum_ofNat (n : ℕ) :
    dblLtMinSafe (toJsNum (JsRat.ofNat n)) = false := by
  by_cases hbig : (2 ^ 1024 - 2 ^ 970 : ℕ) ≤ n
  · rw [toJsNum_ofNat_inf n hbig]
    rfl
  · rw [toJsNum_ofNat_fin n (by omega)]
    simp only [dblLtMinSafe, JsRat.ofNat, Nat.cast_one, mul_one]
    simp only [decide_eq_false_iff_not]
    have e54 : (1 <<< 54 : ℕ) = 18014398509481984 := by decide
    rw [e54]
    intro hcon
    have h1 : (0 : ℤ) ≤ (n : ℤ) := by positivity
    omega

/-- C8 (amended): for every record literal consisting solely of decimal
digits, `parseValue` yields a Number-kind value with no error, and when the
literal's value exceeds the safe-integer range the stored value is the
arbitrary-precision integer (BigInt) exactly equal to the literal's digits,
not a floating-point approximation; inside the range the exact value is
stored as a plain number.  (The unrestricted claim is refuted at
`c8_counterexample_1e21`: a numeric literal in exponent form whose double
value exceeds the safe range makes the source throw in `BigInt(value)`
instead of producing a Number value.) -/
theorem c8_digit_literals_bigint_exact (cs : List Char) (h0 : cs ≠ [])
    (h : ∀ c ∈ cs, isDigitC c = true) :
    parseValueChars cs = .ok "Number"
      (if (2 ^ 53 - 1 : ℕ) < digitsVal cs then TVal.bigint ((digitsVal cs : ℤ))
       else TVal.num (JsRat.ofNat (digitsVal cs))) := by
  obtain ⟨c, rest, rfl⟩ : ∃ c rest, cs = c :: rest := by
    cases cs with
    | nil => exact absurd rfl h0
    | cons c rest => exact ⟨c, rest, rfl⟩
  have hc : isDigitC c = true := h c (by simp)
  have hq : headIs (c :: rest) '"' = false := headIs_of_digits _ h _ (by decide)
  have hbuf : isPrefixC bufPre (c :: rest) = false := by
    show isPrefixC ('<' :: "Buffer".data) (c :: rest) = false
    exact isPrefixC_cons_false _ _ (beq_digit_ne hc (by decide))
  have hu8 : isPrefixC u8Pre (c :: rest) = false := by
    show isPrefixC ('U' :: "int8Array[".data) (c :: rest) = false
    exact isPrefixC_cons_false _ _ (beq_digit_ne hc (by decide))
  have h0x : isPrefixC zeroXPre (c :: rest) = false := by
    show isPrefixC ('0' :: ['x']) (c :: rest) = false
    cases h00 : ('0' == c) with
    | false => simp [isPrefixC, h00]
    | true =>
      cases rest with
      | nil => simp [isPrefixC]
      | cons d rest2 =>
        have hd : ('x' == d) = false := beq_digit_ne (h d (by simp)) (by decide)
        simp [isPrefixC, hd]
  have hnum := jsNumberChars_digits (c :: rest) (by simp) h
  have hpf := parseFloatChars_digits (c :: rest) (by simp) h
  have hbi := jsBigIntChars_digits (c :: rest) (by simp) h
  have hGt := dblGt_toJsNum_ofNat (digitsVal (c :: rest))
  have hLt := dblLt_toJsNum_ofNat (digitsVal (c :: rest))
  unfold parseValueChars
  simp only [List.isEmpty_cons, hq, Bool.false_and, hbuf, hu8, hnum, hpf, h0x,
    Option.isSome_some, Bool.and_true, Bool.true_and, Bool.not_false, Option.getD_some,
    Bool.false_eq_true, if_false, if_true, hGt, hLt, Bool.or_false]
  by_cases hcase : (2 ^ 53 - 1 : ℕ) < digitsVal (c :: rest)
  · have hd : decide ((2 ^ 53 - 1 : ℕ) < digitsVal (c :: rest)) = true := decide_eq_true hcase
    simp only [hd, if_true, hbi, if_pos hcase]
  · have hd : decide ((2 ^ 53 - 1 : ℕ) < digitsVal (c :: rest)) = false :=
      decide_eq_false hcase
    have hfin : toJsNum (JsRat.ofNat (digitsVal (c :: rest))) =
        .fin (JsRat.ofNat (digitsVal (c :: rest))) := by
      apply toJsNum_ofNat_fin
      have ha : (2 : ℕ) ^ 53 ≤ 2 ^ 970 := Nat.pow_le_pow_right (by norm_num) (by norm_num)
      have hb2 : (2 : ℕ) ^ 970 + 2 ^ 970 = 2 ^ 971 := by ring
      have hc2 : (2 : ℕ) ^ 971 ≤ 2 ^ 1024 := Nat.pow_le_pow_right (by norm_num) (by norm_num)
      omega
    simp only [hd, Bool.false_eq_true, if_false, hfin, if_neg hcase]

/-- C8 (counterexample): `1e21` is a numeric literal not prefixed `0x`, yet
value inference does not produce a Number value — the source throws a
`SyntaxError` in `BigInt("1e21")` because the literal's double value
exceeds the safe-integer range while its text is not a valid BigInt
string. -/
theorem c8_counterexample_1e21 :
    parseValue "1e21" = .crash "SyntaxError: Cannot convert value to a BigInt" := rfl

/-- C8 (witness): the amended theorem applied to the digit literal
`9007199254740993 = 2^53 + 1`, which is outside the safe-integer range and
is stored as the exact BigInt. -/
theorem c8_witness :
    (("9007199254740993".data ≠ []) ∧ (∀ c ∈ "9007199254740993".data, isDigitC c = true)) ∧
    parseValueChars "9007199254740993".data = .ok "Number" (TVal.bigint 9007199254740993) :=
  ⟨⟨by decide, by decide⟩, by
    have h := c8_digit_literals_bigint_exact "9007199254740993".data (by decide) (by decide)
    exact h.trans (by rfl)⟩

/-! ### The claims -/

/-- C1: the claim says a validation line whose dot-path does not resolve
against the schema gets a Diagnostic and is not merged.  The code refutes
it: `getSchemaType` returns `[]` (a truthy array) for an unresolved path,
so the `if (!schemaTypeArray)` guard never fires, an `Any`-applicable rule
passes the applicability test against the empty type list, and the line IS
merged with no diagnostic — here `foo -> required=true` against the empty
schema yields no errors and a `foo` rule node. -/
theorem c1_unresolved_path_still_merges :
    parseValidationRun [] ["foo -> required=true", "@end"] 0 =
      .ok ([("foo", VNode.mk (some [("required", RuleVal.bool true)]) [])],
        ([] : List Diag), 1) := rfl

/-- C2: the claim says rules of the Rule Applicability Table — `default`,
`isEqualTo`, `custom`, `matchesField`, `maxSize` among them — never yield
the "is not defined" Diagnostic.  The orchestrator-supplied
`validationKeywords` table has no entry for any of those five names, so
compiling `age -> default=5` against schema `age -> Number` yields exactly
the "Validation rule 'default' is not defined." Diagnostic and merges
nothing. -/
theorem c2_table_rules_reported_not_defined :
    parseValidationRun [("age", SchemaNode.mk ["Number"] none none)]
      ["age -> default=5", "@end"] 0 =
      .ok (([] : VTree), [Diag.mk (some 1) "Validation rule 'default' is not defined."], 1) ∧
    validationKeywords.lookup "default" = none ∧
    validationKeywords.lookup "isEqualTo" = none ∧
    validationKeywords.lookup "custom" = none ∧
    validationKeywords.lookup "matchesField" = none ∧
    validationKeywords.lookup "maxSize" = none :=
  ⟨rfl, rfl, rfl, rfl, rfl, rfl⟩

/-- C3: the claim says each single-section mode returns that section's
compiled content; in particular mode `validations` returns the compiled
RuleSet.  The code refutes it: the `@validations` handler tests
`section === 'schema'` instead of `'validations'`, so in mode
`validations` the marker is skipped and the first rule line reaches the
catch-all branch, which throws `Invalid section parsing!` — for every
schema and record sub-compiler, since neither is ever invoked. -/
theorem c3_validations_mode_throws :
    parseLinesRun spNop rpNop (some "validations")
      ["@validations", "x -> required=true", "@end"] =
      .error "Invalid section parsing!" := rfl

/-- C4: the claim says end of input without a parsed `@schema` adds a
"Missing required section" Diagnostic for `@schema` and zero records adds
one for `@records`.  The code refutes the first half: `this.parsedSchema`
is initialised to the truthy `{}`, so `if (!this.parsedSchema)` never
fires; on empty input the result carries exactly the `@records`
diagnostic and no `@schema` one (and parsing completes non-fatally). -/
theorem c4_missing_schema_never_reported :
    parseLinesRun spNop rpNop none ([] : List String) =
      .ok (OResult.mk false [] [] [] [Diag.mk none "Missing required section: '@records'"]) := rfl

/-- C5: in `parseRules`, under rule name `default` the boolean/null
literals are spelled `TRUE`/`FALSE`/`NULL`, under every other rule name
`true`/`false`/`null`; a value matching no form of the applicable branch
yields the `Invalid format for value of '<rule>' in '<clause>'`
Diagnostic; and apart from the six spelling-sensitive literals the two
branches map every value to identical results. -/
theorem c5_parse_rules_spelling_asymmetry :
    (∀ n c, clauseValueDefault n c (some "TRUE") = .ok (.val (.bool true))) ∧
    (∀ n c, clauseValueDefault n c (some "FALSE") = .ok (.val (.bool false))) ∧
    (∀ n c, clauseValueDefault n c (some "NULL") = .ok (.val .null)) ∧
    (∀ n c, clauseValueOther n c (some "true") = .ok (.val (.bool true))) ∧
    (∀ n c, clauseValueOther n c (some "false") = .ok (.val (.bool false))) ∧
    (∀ n c, clauseValueOther n c (some "null") = .ok (.val .null)) ∧
    (∀ n c, clauseValueDefault n c (some "true") =
      .ok (.diag ("Invalid format for value of '" ++ n ++ "' in '" ++ c ++ "'"))) ∧
    (∀ n c, clauseValueOther n c (some "TRUE") =
      .ok (.diag ("Invalid format for value of '" ++ n ++ "' in '" ++ c ++ "'"))) ∧
    (∀ v : String, v ≠ "TRUE" → v ≠ "FALSE" → v ≠ "NULL" →
      v ≠ "true" → v ≠ "false" → v ≠ "null" →
      ∀ n c, clauseValueDefault n c (some v) = clauseValueOther n c (some v)) := by
  refine ⟨fun n c => rfl, fun n c => rfl, fun n c => rfl, fun n c => rfl, fun n c => rfl,
    fun n c => rfl, fun n c => rfl, fun n c => rfl, ?_⟩
  intro v h1 h2 h3 h4 h5 h6 n c
  have b1 : (v == "TRUE") = false := beq_eq_false_iff_ne.mpr h1
  have b2 : (v == "FALSE") = false := beq_eq_false_iff_ne.mpr h2
  have b3 : (v == "NULL") = false := beq_eq_false_iff_ne.mpr h3
  have b4 : (v == "true") = false := beq_eq_false_iff_ne.mpr h4
  have b5 : (v == "false") = false := beq_eq_false_iff_ne.mpr h5
  have b6 : (v == "null") = false := beq_eq_false_iff_ne.mpr h6
  unfold clauseValueDefault clauseValueOther
  simp only [b1, b2, b3, b4, b5, b6, Bool.or_self, Bool.or_false, Bool.false_or,
    Bool.false_eq_true, if_false]

/-- C5 (witness): the asymmetry and the branch agreement at concrete
inputs: `default=TRUE` parses to boolean true under `default`, and the
value `42` — none of the six literals — gets the same result from both
branches. -/
theorem c5_witness :
    clauseValueDefault "default" "default=TRUE" (some "TRUE") = .ok (.val (.bool true)) ∧
    clauseValueOther "min" "min=42" (some "42") = .ok (.val (.int 42)) ∧
    clauseValueDefault "min" "min=42" (some "42") = clauseValueOther "min" "min=42" (some "42") :=
  ⟨c5_parse_rules_spelling_asymmetry.1 "default" "default=TRUE", rfl,
    c5_parse_rules_spelling_asymmetry.2.2.2.2.2.2.2.2 "42" (by decide) (by decide) (by decide)
      (by decide) (by decide) (by decide) "min" "min=42"⟩

/-- C6: a section's diagnostics enter the orchestrator's aggregated error
list capped at `MAX_ERRORS = 50` (`errors.slice(0, 50)`), dropped silently
beyond the cap; and a `@validations` section whose 60 lines each produce
one Diagnostic contributes exactly 50 of them, for every schema and record
sub-compiler (neither is invoked on this document). -/
theorem c6_section_errors_capped_at_50 :
    (∀ preErrors sectionErrors : List Diag,
      (pushCapped preErrors sectionErrors).length ≤ preErrors.length + maxErrors) ∧
    (resultErrors (parseLinesRun spNop rpNop none doc60)).countP
      (fun d => d.message == "Invalid validation line: \"x\"") = 50 := by
  constructor
  · intro pre sec
    unfold pushCapped maxErrors
    rw [List.length_append, List.length_take]
    omega
  · rfl

/-- C6 (witness): the cap bound applied to 60 identical diagnostics. -/
theorem c6_witness :
    (pushCapped [] (List.replicate 60 (Diag.mk none "e"))).length ≤
      ([] : List Diag).length + maxErrors :=
  c6_section_errors_capped_at_50.1 [] (List.replicate 60 (Diag.mk none "e"))

/-- C7: the record value-inference grammar on the scalar inputs `TRUE`,
`FALSE`, `NULL`, empty, `"x"`, `<Buffer 1 2>`, `42`, `3.14` yields kinds
Boolean, Boolean, Null, undefined, String, Binary, Number, Number with no
error, and the double-quoted empty string collapses to undefined, not
String. -/
theorem c7_value_inference_scalars :
    parseValue "TRUE" = .ok "Boolean" (TVal.bool true) ∧
    parseValue "FALSE" = .ok "Boolean" (TVal.bool false) ∧
    parseValue "NULL" = .ok "Null" TVal.null ∧
    parseValue "" = .ok "undefined" TVal.undef ∧
    parseValue "\"x\"" = .ok "String" (TVal.str "x") ∧
    parseValue "<Buffer 1 2>" = .ok "Binary" (TVal.binaryRaw "<Buffer 1 2>") ∧
    parseValue "42" = .ok "Number" (TVal.num (JsRat.ofNat 42)) ∧
    (parseValue "3.14").kindOf = some "Number" ∧
    parseValue "\"\"" = .ok "undefined" TVal.undef :=
  ⟨rfl, rfl, rfl, rfl, rfl, rfl, rfl, rfl, rfl⟩

/-- C9: the `.length` access in the `minLength`, `maxLength` and `maxSize`
branches of `Validator.validateFields` is unguarded, so a rule tree with
one of those rules over data whose field value is `null` or `undefined`
makes the rule pass throw a TypeError (the validate promise rejects)
instead of returning a result. -/
theorem c9_length_rules_throw_on_null_undefined :
    vfFields 9 [("f", VInput.mk (some [("minLength", RVal.num (JsRat.ofNat 3))]) [])]
      (JsVal.obj []) [] =
      .error "TypeError: Cannot read properties of undefined (reading length)" ∧
    vfFields 9 [("f", VInput.mk (some [("maxLength", RVal.num (JsRat.ofNat 3))]) [])]
      (JsVal.obj [("f", JsVal.null)]) [] =
      .error "TypeError: Cannot read properties of null (reading length)" ∧
    vfFields 9 [("f", VInput.mk (some [("maxSize", RVal.num (JsRat.ofNat 3))]) [])]
      (JsVal.obj [("f", JsVal.null)]) [] =
      .error "TypeError: Cannot read properties of null (reading length)" ∧
    validate 9 none (some [("f", VInput.mk (some [("minLength", RVal.num (JsRat.ofNat 3))]) [])])
      (JsVal.obj []) =
      .error "TypeError: Cannot read properties of undefined (reading length)" :=
  ⟨rfl, rfl, rfl, rfl⟩

/-- C10: whenever the schema (shape) pass records at least one error,
`Validator.validate` returns `{ valid: false, errors }` with exactly those
errors and the rule pass never runs — the result is identical to a call
without `validateData`, so rule diagnostics never co-occur with shape
diagnostics in one result. -/
theorem c10_schema_errors_short_circuit_rules (fuel : ℕ)
    (s : List (String × VSchemaDef)) (vd : List (String × VInput)) (data : JsVal)
    (se : List VErr) (hs : vsSchema fuel s data [] = .ok se) (hne : se ≠ []) :
    validate fuel (some s) (some vd) data = .ok (VResult.mk false (some se)) ∧
    validate fuel (some s) (some vd) data = validate fuel (some s) none data := by
  have hlen : (se.length == 0) = false := by
    cases se with
    | nil => exact absurd rfl hne
    | cons e r => rfl
  have hok : (Except.ok se : Except String (List VErr)) = pure se := rfl
  constructor
  · simp only [validate, hs, hok, pure_bind, hlen, Bool.not_false, if_true]
    rfl
  · simp only [validate, hs, hok, pure_bind, hlen, Bool.not_false, if_true]

/-- C10 (witness): a schema whose `Number` field holds a string fails the
shape pass; the rule pass is skipped and the result equals the
rules-free call. -/
theorem c10_witness :
    validate 9 (some [("a", VSchemaDef.mk ["Number"] none none)])
        (some [("a", VInput.mk (some [("required", RVal.bool true)]) [])])
        (JsVal.obj [("a", JsVal.str "x")]) =
      .ok (VResult.mk false (some [VErr.mk "a" "Field a does not match schema type: Number"])) ∧
    validate 9 (some [("a", VSchemaDef.mk ["Number"] none none)])
        (some [("a", VInput.mk (some [("required", RVal.bool true)]) [])])
        (JsVal.obj [("a", JsVal.str "x")]) =
      validate 9 (some [("a", VSchemaDef.mk ["Number"] none none)]) none
        (JsVal.obj [("a", JsVal.str "x")]) :=
  c10_schema_errors_short_circuit_rules 9 _ _ _
    [VErr.mk "a" "Field a does not match schema type: Number"] rfl
    (List.cons_ne_nil _ _)

end Nuvira
